import Mathlib

/-!
# LDAPServerMonitor: snapshot diff engine, poll cycle and listener registry

A shallow embedding of `src/ldapmonitor/ldapmonitor.go` and `src/ldapmonitor/util.go`.

* A Go `map[string]V` is a `GoMap V`: its entries, with pairwise distinct keys, listed in one
  of the orders a `range` loop may visit them.  Every statement below is quantified over all
  such orders.
* The receiver `m *Monitor` is threaded explicitly: a method that mutates the monitor returns
  the new monitor.
* `dataChan` is the FIFO content of the event channel together with its closed flag.  A send
  on a closed channel panics in Go; this is the `none` result of `changeAction`.  The channel
  capacity (1024) only delays a send and is not part of the model.
* `ignoreFileds` (a `set.Set` of an external library) is the list of its members, and
  `Exists` is membership.  `Add` occurs in `NewMonitor` only and is modelled there on the item
  map of the set (`GoSet`), which is nil in the zero value the struct literal leaves.
* The result of `getAllData` (the LDAP bulk read) is an input of the poll cycle.  The read
  itself is modelled over the outcomes of the LDAP client library: `dial` gives the outcome of
  connecting for a configuration, and a list gives what successive searches return.
* A `go` statement is recorded, not run: `StartMonitor` records the goroutines it launches and
  `dispatch` the callback invocations it starts.
* `printLog` only writes log lines and `time.Sleep` only delays; neither is modelled.
-/

namespace LDAPMonitor

/-! ## Go maps -/

/-- A Go `map[string]V`: entries with pairwise distinct keys, in an iteration order. -/
structure GoMap (V : Type) where
  entries : List (String × V)
  nodupKeys : (entries.map Prod.fst).Nodup

namespace GoMap

variable {V : Type}

/-- The empty map; it behaves like the `nil` map for every read. -/
def empty : GoMap V := ⟨[], List.nodup_nil⟩

instance : Inhabited (GoMap V) := ⟨empty⟩

instance [DecidableEq V] : DecidableEq (GoMap V) := fun a b =>
  decidable_of_iff (a.entries = b.entries) (by cases a; cases b; simp)

/-- Go `len(m)`. -/
def len (m : GoMap V) : Nat := m.entries.length

/-- The value stored under `k`, if any. -/
def get? (m : GoMap V) (k : String) : Option V :=
  (m.entries.find? (fun e => decide (e.1 = k))).map Prod.snd

/-- Go `v, ok := m[k]`: the zero value and `false` when `k` is absent. -/
def index [Inhabited V] (m : GoMap V) (k : String) : V × Bool :=
  match m.get? k with
  | some v => (v, true)
  | none => (default, false)

/-- Go `delete(m, k)`. -/
def delete (m : GoMap V) (k : String) : GoMap V :=
  ⟨m.entries.filter (fun e => decide (e.1 ≠ k)),
    m.nodupKeys.sublist ((List.filter_sublist m.entries).map Prod.fst)⟩

/-- Go `m[k] = v`. -/
def store (m : GoMap V) (k : String) (v : V) : GoMap V :=
  ⟨(k, v) :: m.entries.filter (fun e => decide (e.1 ≠ k)), by
    rw [List.map_cons, List.nodup_cons]
    refine ⟨?_, m.nodupKeys.sublist ((List.filter_sublist m.entries).map Prod.fst)⟩
    intro hk
    obtain ⟨e, he, hek⟩ := List.mem_map.1 hk
    have hne := (List.mem_filter.1 he).2
    simp at hne
    exact hne hek⟩

/-- The keys of a map, in iteration order. -/
def keys (m : GoMap V) : List String := m.entries.map Prod.fst

end GoMap

/-! ## Data model (`ldapmonitor.go`, lines 17-69) -/

inductive DataChangeType where
  | Create
  | Delete
  | Modify
  deriving DecidableEq, Repr

structure LDAPChangeEntry where
  AccountName : String
  Filed : String
  ChangeBefore : String
  ChangeAfter : String
  ChangeType : DataChangeType
  deriving DecidableEq, Repr

def newLDAPChangeEntry (accountName filed before after : String)
    (changeType : DataChangeType) : LDAPChangeEntry :=
  { AccountName := accountName
    Filed := filed
    ChangeBefore := before
    ChangeAfter := after
    ChangeType := changeType }

structure LDAPMonitorConfig where
  Url : String
  ManagerDN : String
  ManagerPassword : String
  BaseDN : String
  RefreshPeriodInSecond : Int
  IgnoreLDAPFileds : List String
  PrintLog : Bool

/-- The part of `*ldap.Conn` the monitor reads: whether the connection is closing. -/
structure Conn where
  closing : Bool

/-- The event channel: queued entries, oldest first, and whether it has been closed. -/
structure Chan where
  queue : List LDAPChangeEntry
  closed : Bool

/-- A snapshot: entity key to field mapping. -/
abbrev Snapshot := GoMap (GoMap String)

/-- The monitor; `F` is the type of listener callbacks. -/
structure Monitor (F : Type) where
  isClose : Bool
  conn : Conn
  ldapMonitorConfig : LDAPMonitorConfig
  listeners : GoMap F
  dataBefore : Snapshot
  dataAfter : Snapshot
  dataChan : Chan
  ignoreFileds : List String

/-! ## `util.go` -/

def getKeysOfMaps (m : Snapshot) : List String :=
  m.entries.foldl (fun keys e => keys ++ [e.1]) []

def getKeysOfMap (m : GoMap String) : List String :=
  m.entries.foldl (fun keys e => keys ++ [e.1]) []

def union (lists : List (List String)) : List String :=
  let tempMap : GoMap Nat :=
    lists.foldl (fun t list => list.foldl (fun t str => t.store str 1) t) GoMap.empty
  tempMap.entries.foldl (fun keys e => keys ++ [e.1]) []

/-! ## The diff engine (`ldapmonitor.go`, lines 145-203) -/

variable {F : Type}

/-- Go `m.dataChan <- e`. -/
def Chan.send (c : Chan) (e : LDAPChangeEntry) : Option Chan :=
  if c.closed then none else some { c with queue := c.queue ++ [e] }

def changeAction (m : Monitor F) (accountName filed valueBefore valueAfter : String)
    (changeType : DataChangeType) : Option (Monitor F) :=
  (m.dataChan.send (newLDAPChangeEntry accountName filed valueBefore valueAfter changeType)).map
    (fun c => { m with dataChan := c })

def deleteUserAction (m : Monitor F) (accountName : String) (data : GoMap String) :
    Option (Monitor F) :=
  data.entries.foldlM (fun m e => changeAction m accountName e.1 e.2 "" DataChangeType.Delete) m

def createUserAction (m : Monitor F) (accountName : String) (data : GoMap String) :
    Option (Monitor F) :=
  data.entries.foldlM (fun m e => changeAction m accountName e.1 "" e.2 DataChangeType.Create) m

/-- One iteration of the loop of `diffAllFileds`. -/
def diffAllFiledsStep (accountName : String) (userBefore userAfter : GoMap String)
    (m : Monitor F) (filed : String) : Option (Monitor F) :=
  if filed ∈ m.ignoreFileds then some m
  else
    let stringBefore := (userBefore.index filed).1
    let existBefore := (userBefore.index filed).2
    let stringAfter := (userAfter.index filed).1
    let existAfter := (userAfter.index filed).2
    if existBefore && !existAfter then
      changeAction m accountName filed stringBefore stringAfter DataChangeType.Delete
    else if !existBefore && existAfter then
      changeAction m accountName filed stringBefore stringAfter DataChangeType.Create
    else if existBefore && existAfter && stringBefore != stringAfter then
      changeAction m accountName filed stringBefore stringAfter DataChangeType.Modify
    else some m

def diffAllFileds (m : Monitor F) (accountName : String) (userBefore userAfter : GoMap String) :
    Option (Monitor F) :=
  let filedsBefor := getKeysOfMap userBefore
  let filedsAfter := getKeysOfMap userAfter
  let allFileds := union [filedsBefor, filedsAfter]
  allFileds.foldlM (diffAllFiledsStep accountName userBefore userAfter) m

/-- One iteration of the loop of `diffAccountName`. -/
def diffAccountNameStep (before after : Snapshot) (m : Monitor F) (accountName : String) :
    Option (Monitor F) :=
  let userBefore := (before.index accountName).1
  let existBefore := (before.index accountName).2
  let userAfter := (after.index accountName).1
  let existAfter := (after.index accountName).2
  if existBefore && !existAfter then deleteUserAction m accountName userBefore
  else if !existBefore && existAfter then createUserAction m accountName userAfter
  else if existBefore && existAfter then diffAllFileds m accountName userBefore userAfter
  else some m

def diffAccountName (m : Monitor F) : Option (Monitor F) :=
  let before := m.dataBefore
  let after := m.dataAfter
  let accountNamesBefor := getKeysOfMaps before
  let accountNamesAfter := getKeysOfMaps after
  let allUserNames := union [accountNamesBefor, accountNamesAfter]
  allUserNames.foldlM (diffAccountNameStep before after) m

/-! ## The poll loop (`ldapmonitor.go`, lines 205-217) -/

/-- The body of the loop of `backgroundMonitor`, given the snapshot `getAllData` returned. -/
def pollCycle (m : Monitor F) (fetched : Snapshot) : Option (Monitor F) :=
  let m := { m with dataAfter := fetched }
  if m.dataBefore.len == 0 then
    some { m with dataBefore := m.dataAfter }
  else
    (diffAccountName m).map (fun m => { m with dataBefore := m.dataAfter })

/-- The loop of `backgroundMonitor` over the snapshots successive `getAllData` calls return. -/
def backgroundMonitor : Monitor F → List Snapshot → Option (Monitor F)
  | m, [] => some m
  | m, fetched :: rest =>
    if m.isClose then some m
    else (pollCycle m fetched).bind (fun m => backgroundMonitor m rest)

/-! ## Listener registry (`ldapmonitor.go`, lines 93-111) -/

/-- Go `len(s)` of a string: its length in bytes. -/
def strLen (s : String) : Nat := s.utf8ByteSize

def AddListener (m : Monitor F) (listenerName : String) (f : F) : Monitor F × Option String :=
  if strLen listenerName == 0 then (m, some "'listenerName' do not be empty")
  else ({ m with listeners := m.listeners.store listenerName f }, none)

def RemoveListener (m : Monitor F) (listenerName : String) : Monitor F × Option String :=
  if strLen listenerName == 0 then (m, some "'listenerName' do not be empty")
  else ({ m with listeners := m.listeners.delete listenerName }, none)

/-! ## Running the diff on two snapshots -/

/-- A running monitor holding `before` and `after`, with an open, empty channel. -/
def Monitor.ofSnapshots (before after : Snapshot) (ignore : List String) : Monitor Unit :=
  { isClose := false
    conn := { closing := false }
    ldapMonitorConfig :=
      { Url := "", ManagerDN := "", ManagerPassword := "", BaseDN := ""
        RefreshPeriodInSecond := 20, IgnoreLDAPFileds := ignore, PrintLog := false }
    listeners := GoMap.empty
    dataBefore := before
    dataAfter := after
    dataChan := { queue := [], closed := false }
    ignoreFileds := ignore }

/-- The events `diffAccountName` sends for `before`, `after` and the ignore set, in order: the
queue it leaves on the open, empty channel of `Monitor.ofSnapshots` (on which it always
returns, see `diffAccountName_open`). -/
def diff (before after : Snapshot) (ignore : List String) : List LDAPChangeEntry :=
  match diffAccountName (Monitor.ofSnapshots before after ignore) with
  | some m => m.dataChan.queue
  | none => []

/-! ## The events of a run, as a function of the snapshots -/

/-- The monitor after the entries `evs` were sent on its channel. -/
def Monitor.enqueue (m : Monitor F) (evs : List LDAPChangeEntry) : Monitor F :=
  { m with dataChan := { m.dataChan with queue := m.dataChan.queue ++ evs } }

/-- What one iteration of `diffAllFileds` sends. -/
def fieldEvents (accountName : String) (userBefore userAfter : GoMap String)
    (ignore : List String) (filed : String) : List LDAPChangeEntry :=
  if filed ∈ ignore then []
  else
    match userBefore.get? filed, userAfter.get? filed with
    | some b, none => [⟨accountName, filed, b, "", DataChangeType.Delete⟩]
    | none, some a => [⟨accountName, filed, "", a, DataChangeType.Create⟩]
    | some b, some a => if b = a then [] else [⟨accountName, filed, b, a, DataChangeType.Modify⟩]
    | none, none => []

/-- What one iteration of `diffAccountName` sends. -/
def entityEvents (before after : Snapshot) (ignore : List String) (accountName : String) :
    List LDAPChangeEntry :=
  match before.get? accountName, after.get? accountName with
  | some ub, none => ub.entries.map (fun e => ⟨accountName, e.1, e.2, "", DataChangeType.Delete⟩)
  | none, some ua => ua.entries.map (fun e => ⟨accountName, e.1, "", e.2, DataChangeType.Create⟩)
  | some ub, some ua =>
    (union [getKeysOfMap ub, getKeysOfMap ua]).flatMap (fieldEvents accountName ub ua ignore)
  | none, none => []

/-- What `diffAccountName` sends. -/
def diffEvents (before after : Snapshot) (ignore : List String) : List LDAPChangeEntry :=
  (union [getKeysOfMaps before, getKeysOfMaps after]).flatMap (entityEvents before after ignore)

/-! ## Concrete snapshots used to evaluate the code -/

/-- The snapshot with the single entity `key`, whose only field is `filed` with value `value`. -/
def Snapshot.single (key filed value : String) : Snapshot :=
  GoMap.empty.store key (GoMap.empty.store filed value)

/-- The snapshot `{"carol": {"logonCount": count, "title": "eng"}}`. -/
def Snapshot.carol (count : String) : Snapshot :=
  GoMap.empty.store "carol" ((GoMap.empty.store "logonCount" count).store "title" "eng")

/-- The snapshot `{"carol": {"logonCount": "5", "title": "eng"}, "bob": {"title": "eng"}}`. -/
def Snapshot.carolAndBob : Snapshot :=
  (Snapshot.carol "5").store "bob" (GoMap.empty.store "title" "eng")

/-- The event seen from the opposite direction of comparison: `Create` and `Delete` exchanged,
`Modify` kept, `ChangeBefore` and `ChangeAfter` exchanged. -/
def LDAPChangeEntry.mirror (e : LDAPChangeEntry) : LDAPChangeEntry :=
  { AccountName := e.AccountName
    Filed := e.Filed
    ChangeBefore := e.ChangeAfter
    ChangeAfter := e.ChangeBefore
    ChangeType :=
      match e.ChangeType with
      | DataChangeType.Create => DataChangeType.Delete
      | DataChangeType.Delete => DataChangeType.Create
      | DataChangeType.Modify => DataChangeType.Modify }

/-! ## Dispatch (`ldapmonitor.go`, lines 219-226) -/

/-- One callback invocation started by `dispatch`: `go function(data)` for the registry entry
`listenerName`. -/
structure Invocation (F : Type) where
  listenerName : String
  function : F
  data : LDAPChangeEntry

/-- Go `m.listeners.Range(...)` in the body of `dispatch`: the invocations it starts for
`data`, one per registry entry. -/
def fanOut (m : Monitor F) (data : LDAPChangeEntry) : List (Invocation F) :=
  m.listeners.entries.foldl (fun started e => started ++ [⟨e.1, e.2, data⟩]) []

/-- One iteration of `for data := range m.dataChan`: receive the oldest queued entry and fan it
out.  No result on an empty queue (the receive blocks, or ends the loop once the channel is
closed). -/
def dispatchStep (m : Monitor F) : Option (Monitor F × List (Invocation F)) :=
  match m.dataChan.queue with
  | [] => none
  | data :: rest => some ({ m with dataChan := { m.dataChan with queue := rest } }, fanOut m data)

/-- What can happen, one at a time, while the dispatch loop runs: a caller registers or
unregisters a listener, or the loop receives the next queued entry. -/
inductive Action (F : Type) where
  | addListener (listenerName : String) (f : F)
  | removeListener (listenerName : String)
  | receive

/-- A sequential interleaving of registry calls and receives: the final monitor and every
invocation started, in order.  A receive on an empty queue waits and changes nothing. -/
def runActions : Monitor F → List (Action F) → Monitor F × List (Invocation F)
  | m, [] => (m, [])
  | m, Action.addListener listenerName f :: rest =>
    runActions (AddListener m listenerName f).1 rest
  | m, Action.removeListener listenerName :: rest =>
    runActions (RemoveListener m listenerName).1 rest
  | m, Action.receive :: rest =>
    match dispatchStep m with
    | none => runActions m rest
    | some (m', started) => ((runActions m' rest).1, started ++ (runActions m' rest).2)

/-! ## Lifecycle (`ldapmonitor.go`, lines 71-143) -/

/-- Go `(*ldap.Conn).IsClosing` of the LDAP client library. -/
def Conn.IsClosing (c : Conn) : Bool := c.closing

/-- Go `(*ldap.Conn).Close` of the LDAP client library: the connection is closing from then
on. -/
def Conn.Close (c : Conn) : Conn := { c with closing := true }

/-- Go `close(c)`; closing a closed channel panics (no result). -/
def Chan.close (c : Chan) : Option Chan :=
  if c.closed then none else some { c with closed := true }

def Close (m : Monitor F) : Option (Monitor F) :=
  if m.isClose || m.conn.IsClosing then some m
  else
    let m := { m with conn := m.conn.Close }
    m.dataChan.close.map (fun c => { m with dataChan := c, isClose := true })

/-- The background tasks `StartMonitor` launches. -/
inductive Goroutine where
  | backgroundMonitor
  | dispatch
  deriving DecidableEq, Repr

/-- A monitor together with the goroutines launched for it so far, oldest first. -/
structure Process (F : Type) where
  monitor : Monitor F
  goroutines : List Goroutine

def StartMonitor (p : Process F) : Process F :=
  let p := { p with goroutines := p.goroutines ++ [Goroutine.backgroundMonitor] }
  let p := { p with goroutines := p.goroutines ++ [Goroutine.dispatch] }
  p

/-- The body of `connectLDAPServer`: `dial` is the outcome of `ldap.DialURL` followed by
`Bind` for a configuration, and an error panics (no result). -/
def connectLDAPServer (dial : LDAPMonitorConfig → Option Conn) (config : LDAPMonitorConfig) :
    Option Conn :=
  dial config

/-- The `set.Set` of the external set library: its item map, `none` for the nil map of the
zero value (a `set.Set` that `set.New` did not build). -/
structure GoSet where
  items : Option (List String)

/-- Go `(*set.Set).Add` for one item: `set.items[item] = struct{}{}`.  An assignment to an
entry of a nil map panics (no result). -/
def GoSet.Add (s : GoSet) (item : String) : Option GoSet :=
  match s.items with
  | none => none
  | some l => some { items := some (l ++ [item]) }

/-- The members of a set; a nil item map has none. -/
def GoSet.members (s : GoSet) : List String :=
  match s.items with
  | none => []
  | some l => l

/-- The body of `NewMonitor` up to its `return`: the monitor it has built and the value of its
parameter `config` at that point.  The struct literal does not mention `ignoreFileds`, which
is therefore the zero value of `set.Set` when the loop over `config.IgnoreLDAPFileds` calls
`Add` on it. -/
def NewMonitorBody (dial : LDAPMonitorConfig → Option Conn) (config : LDAPMonitorConfig) :
    Option (Monitor F × LDAPMonitorConfig) :=
  (connectLDAPServer dial config).bind (fun conn =>
    let ignoreFileds : GoSet := { items := none }
    (config.IgnoreLDAPFileds.foldlM (fun (ignoreFileds : GoSet) v => ignoreFileds.Add v)
        ignoreFileds).map (fun ignoreFileds =>
      let monitor : Monitor F :=
        { ldapMonitorConfig := config
          conn := conn
          isClose := false
          dataChan := { queue := [], closed := false }
          listeners := GoMap.empty
          dataBefore := GoMap.empty
          dataAfter := GoMap.empty
          ignoreFileds := ignoreFileds.members }
      let config :=
        if config.RefreshPeriodInSecond ≤ 0 then { config with RefreshPeriodInSecond := 20 }
        else config
      (monitor, config)))

def NewMonitor (dial : LDAPMonitorConfig → Option Conn) (config : LDAPMonitorConfig) :
    Option (Monitor F) :=
  (NewMonitorBody dial config).map Prod.fst

/-- The number of seconds `backgroundMonitor` passes to `time.Sleep` at the end of a cycle. -/
def sleepSeconds (m : Monitor F) : Int := m.ldapMonitorConfig.RefreshPeriodInSecond

/-- A configuration that names no field to ignore, with `RefreshPeriodInSecond` set to
`period`. -/
def configWithPeriod (period : Int) : LDAPMonitorConfig :=
  { Url := "ldap://example", ManagerDN := "", ManagerPassword := "", BaseDN := ""
    RefreshPeriodInSecond := period, IgnoreLDAPFileds := [], PrintLog := false }

/-- The configuration `main.go` passes to `NewMonitor`. -/
def mainConfig : LDAPMonitorConfig :=
  { Url := "ldap://...", ManagerDN := "", ManagerPassword := "", BaseDN := ""
    RefreshPeriodInSecond := 10, IgnoreLDAPFileds := ["logonCount"], PrintLog := false }

/-- A dial that succeeds for every configuration. -/
def dialOk (_ : LDAPMonitorConfig) : Option Conn := some { closing := false }

/-- A monitor that was never closed but whose connection is closing, as after the server
dropped the connection. -/
def Monitor.connectionLost : Monitor Unit :=
  { Monitor.ofSnapshots GoMap.empty GoMap.empty [] with conn := { closing := true } }

/-! ## The bulk read (`ldapmonitor.go`, lines 228-280) -/

def _accountNameFiled : String := "sAMAccountName"

/-- An attribute of an LDAP entry (`ldap.EntryAttribute`). -/
structure EntryAttribute where
  Name : String
  Values : List String

/-- An LDAP entry (`ldap.Entry`), as far as `getAllData` reads it. -/
structure Entry where
  Attributes : List EntryAttribute

/-- Go `(*ldap.Entry).GetAttributeValue`: the first value of the first attribute with the given
name, or the empty string. -/
def Entry.GetAttributeValue (e : Entry) (attributeName : String) : String :=
  match e.Attributes.find? (fun a => decide (a.Name = attributeName)) with
  | some a => a.Values.headD ""
  | none => ""

/-- Go `fmt.Sprintf("%s", values)` for a `[]string`: the values separated by blanks, in square
brackets. -/
def sprintValues (values : List String) : String :=
  "[" ++ " ".intercalate values ++ "]"

/-- Go `strings.Contains`. -/
def stringsContains (s substr : String) : Bool :=
  s.data.tails.any (fun t => substr.data.isPrefixOf t)

/-- The request of one iteration of `searchAll`; `Cookie` is the cookie of its paging control. -/
structure SearchRequest where
  BaseDN : String
  Filter : String
  Attributes : List String
  PagingSize : Nat
  Cookie : List Nat

/-- What `m.conn.Search(request)` returns: an error, or a response with its entries and the
cookie of its paging control, if it has one. -/
inductive SearchResult where
  | err (message : String)
  | response (Entries : List Entry) (paging : Option (List Nat))

/-- The state of the loop of `searchAll`: the monitor, the cookie of `pagingControl` (carried
by the next request), what the callback has accumulated, and the requests sent so far. -/
structure SearchLoop (F σ : Type) where
  m : Monitor F
  cookie : List Nat
  acc : σ
  sent : List SearchRequest

variable {σ : Type}

/-- One iteration of the loop of `searchAll`, given what the search returns: the next state and
whether the loop continues.  A failed reconnect panics (no result). -/
def searchAllStep (dial : LDAPMonitorConfig → Option Conn) (pageSize : Nat)
    (searchBase filter : String) (attributes : List String) (callback : σ → List Entry → σ)
    (s : SearchLoop F σ) (result : SearchResult) : Option (SearchLoop F σ × Bool) :=
  let request : SearchRequest := ⟨searchBase, filter, attributes, pageSize, s.cookie⟩
  let s := { s with sent := s.sent ++ [request] }
  match result with
  | SearchResult.err message =>
    if stringsContains message "LDAP Result Code 200" then
      (connectLDAPServer dial s.m.ldapMonitorConfig).map
        (fun conn => ({ s with m := { s.m with conn := conn } }, true))
    else some (s, true)
  | SearchResult.response entries paging =>
    let s := { s with acc := callback s.acc entries }
    match paging with
    | some cookie =>
      if cookie.length != 0 then some ({ s with cookie := cookie }, true) else some (s, false)
    | none => some (s, false)

/-- The loop of `searchAll` over the results successive searches return.  No result when the
loop has not reached its `break` within these results. -/
def searchAllLoop (dial : LDAPMonitorConfig → Option Conn) (pageSize : Nat)
    (searchBase filter : String) (attributes : List String) (callback : σ → List Entry → σ) :
    SearchLoop F σ → List SearchResult → Option (SearchLoop F σ)
  | _, [] => none
  | s, result :: rest =>
    match searchAllStep dial pageSize searchBase filter attributes callback s result with
    | none => none
    | some (s', true) =>
      searchAllLoop dial pageSize searchBase filter attributes callback s' rest
    | some (s', false) => some s'

def searchAll (dial : LDAPMonitorConfig → Option Conn) (m : Monitor F) (pageSize : Nat)
    (searchBase filter : String) (attributes : List String) (callback : σ → List Entry → σ)
    (acc : σ) (results : List SearchResult) : Option (SearchLoop F σ) :=
  searchAllLoop dial pageSize searchBase filter attributes callback
    { m := m, cookie := [], acc := acc, sent := [] } results

/-- The callback `getAllData` passes to `searchAll`, acting on the map `result`. -/
def getAllDataCallback (result : Snapshot) (entries : List Entry) : Snapshot :=
  entries.foldl (fun result entry =>
    let attributes : GoMap String := entry.Attributes.foldl
      (fun attributes attr =>
        attributes.store attr.Name (sprintValues attr.Values)) GoMap.empty
    let name := entry.GetAttributeValue _accountNameFiled
    result.store name attributes) result

/-- The final state of the read of `getAllData`; its `acc` is the snapshot returned. -/
def getAllData (dial : LDAPMonitorConfig → Option Conn) (m : Monitor F)
    (results : List SearchResult) : Option (SearchLoop F Snapshot) :=
  searchAll dial m 512 m.ldapMonitorConfig.BaseDN "(objectClass=*)" [] getAllDataCallback
    GoMap.empty results

/-- Whether a search result is a response. -/
def SearchResult.isResponse : SearchResult → Bool
  | SearchResult.err _ => false
  | SearchResult.response _ _ => true

/-- The entry of the account `name`, with its `sAMAccountName` as only attribute. -/
def Entry.account (name : String) : Entry :=
  { Attributes := [{ Name := "sAMAccountName", Values := [name] }] }

/-- A read interrupted after its first page: the page of `alice` with cookie `[1]`, a network
error, then the last page, with `bob`. -/
def interruptedRead : List SearchResult :=
  [SearchResult.response [Entry.account "alice"] (some [1]),
    SearchResult.err "LDAP Result Code 200 \"Network Error\"",
    SearchResult.response [Entry.account "bob"] none]

/-! ## Lemmas on Go maps and `util.go` -/

namespace GoMap

variable {V : Type}

theorem mem_entries_iff (m : GoMap V) (k : String) (v : V) :
    (k, v) ∈ m.entries ↔ m.get? k = some v := by
  obtain ⟨l, hl⟩ := m
  simp only [get?]
  induction l with
  | nil => simp
  | cons e l ih =>
    obtain ⟨k', v'⟩ := e
    rw [List.map_cons, List.nodup_cons] at hl
    by_cases hk : k' = k
    · subst hk
      have hnot : (k', v) ∉ l := fun h => hl.1 (List.mem_map.2 ⟨(k', v), h, rfl⟩)
      simp [List.find?_cons, hnot, eq_comm]
    · have hk2 : ¬ k = k' := fun h => hk h.symm
      simp [List.find?_cons, hk, hk2, ih hl.2]

theorem mem_keys_iff (m : GoMap V) (k : String) : k ∈ m.keys ↔ ∃ v, m.get? k = some v := by
  simp only [keys, List.mem_map]
  constructor
  · rintro ⟨⟨k', v⟩, he, rfl⟩
    exact ⟨v, (mem_entries_iff m k' v).1 he⟩
  · rintro ⟨v, hv⟩
    exact ⟨(k, v), (mem_entries_iff m k v).2 hv, rfl⟩

theorem not_mem_keys_iff (m : GoMap V) (k : String) : k ∉ m.keys ↔ m.get? k = none := by
  rw [mem_keys_iff]
  cases m.get? k <;> simp

theorem mem_keys_store (m : GoMap V) (k : String) (v : V) (x : String) :
    x ∈ (m.store k v).keys ↔ x = k ∨ x ∈ m.keys := by
  simp only [keys, store, List.map_cons, List.mem_cons, List.mem_map, List.mem_filter]
  constructor
  · rintro (h | ⟨e, ⟨he, -⟩, rfl⟩)
    · exact Or.inl h
    · exact Or.inr ⟨e, he, rfl⟩
  · rintro (h | ⟨e, he, rfl⟩)
    · exact Or.inl h
    · by_cases hk : e.1 = k
      · exact Or.inl hk
      · exact Or.inr ⟨e, ⟨he, by simpa using hk⟩, rfl⟩

theorem index_eq [Inhabited V] (m : GoMap V) (k : String) :
    m.index k = ((m.get? k).getD default, (m.get? k).isSome) := by
  unfold index
  cases m.get? k <;> rfl

end GoMap

theorem foldl_keys {V : Type} (l : List (String × V)) (acc : List String) :
    l.foldl (fun keys e => keys ++ [e.1]) acc = acc ++ l.map Prod.fst := by
  induction l generalizing acc with
  | nil => simp
  | cons e l ih => simp [ih]

theorem getKeysOfMaps_eq (m : Snapshot) : getKeysOfMaps m = m.keys := by
  simp [getKeysOfMaps, GoMap.keys, foldl_keys]

theorem getKeysOfMap_eq (m : GoMap String) : getKeysOfMap m = m.keys := by
  simp [getKeysOfMap, GoMap.keys, foldl_keys]

theorem mem_keys_foldl_store (list : List String) (t : GoMap Nat) (x : String) :
    x ∈ (list.foldl (fun t str => t.store str 1) t).keys ↔ x ∈ list ∨ x ∈ t.keys := by
  induction list generalizing t with
  | nil => simp
  | cons a list ih =>
    rw [List.foldl_cons, ih, GoMap.mem_keys_store, List.mem_cons]
    tauto

theorem mem_keys_foldl_lists (lists : List (List String)) (t : GoMap Nat) (x : String) :
    x ∈ (lists.foldl (fun t list => list.foldl (fun t str => t.store str 1) t) t).keys ↔
      (∃ l ∈ lists, x ∈ l) ∨ x ∈ t.keys := by
  induction lists generalizing t with
  | nil => simp
  | cons a lists ih =>
    rw [List.foldl_cons, ih, mem_keys_foldl_store]
    simp only [List.mem_cons, exists_eq_or_imp]
    constructor
    · rintro (h | h | h)
      · exact Or.inl (Or.inr h)
      · exact Or.inl (Or.inl h)
      · exact Or.inr h
    · rintro ((h | h) | h)
      · exact Or.inr (Or.inl h)
      · exact Or.inl h
      · exact Or.inr (Or.inr h)

theorem mem_union (lists : List (List String)) (x : String) :
    x ∈ union lists ↔ ∃ l ∈ lists, x ∈ l := by
  unfold union
  simp only [foldl_keys, List.nil_append]
  have h := mem_keys_foldl_lists lists GoMap.empty x
  simp only [GoMap.keys] at h
  rw [h]
  simp [GoMap.empty]

theorem nodup_union (lists : List (List String)) : (union lists).Nodup := by
  unfold union
  simp only [foldl_keys, List.nil_append]
  exact GoMap.nodupKeys _

/-! ## The state-passing functions send exactly the events above -/

theorem enqueue_nil (m : Monitor F) : m.enqueue [] = m := by
  simp [Monitor.enqueue]

theorem enqueue_enqueue (m : Monitor F) (a b : List LDAPChangeEntry) :
    (m.enqueue a).enqueue b = m.enqueue (a ++ b) := by
  simp [Monitor.enqueue]

theorem changeAction_open (m : Monitor F) (h : m.dataChan.closed = false)
    (accountName filed valueBefore valueAfter : String) (changeType : DataChangeType) :
    changeAction m accountName filed valueBefore valueAfter changeType =
      some (m.enqueue [⟨accountName, filed, valueBefore, valueAfter, changeType⟩]) := by
  simp [changeAction, Chan.send, h, Monitor.enqueue, newLDAPChangeEntry]

theorem foldlM_enqueue {α : Type} (m0 : Monitor F) (f : Monitor F → α → Option (Monitor F))
    (g : α → List LDAPChangeEntry)
    (hf : ∀ evs a, f (m0.enqueue evs) a = some (m0.enqueue (evs ++ g a)))
    (l : List α) (evs : List LDAPChangeEntry) :
    l.foldlM f (m0.enqueue evs) = some (m0.enqueue (evs ++ l.flatMap g)) := by
  induction l generalizing evs with
  | nil => simp
  | cons a l ih =>
    rw [List.foldlM_cons, hf]
    simp only [Option.bind_eq_bind, Option.some_bind]
    rw [ih, List.flatMap_cons, List.append_assoc]

theorem foldlM_open {α : Type} (m : Monitor F) (f : Monitor F → α → Option (Monitor F))
    (g : α → List LDAPChangeEntry)
    (hf : ∀ evs a, f (m.enqueue evs) a = some ((m.enqueue evs).enqueue (g a)))
    (l : List α) : l.foldlM f m = some (m.enqueue (l.flatMap g)) := by
  have h := foldlM_enqueue m f g (fun evs a => by rw [hf, enqueue_enqueue]) l []
  simpa [enqueue_nil] using h

theorem deleteUserAction_open (m : Monitor F) (h : m.dataChan.closed = false)
    (accountName : String) (data : GoMap String) :
    deleteUserAction m accountName data =
      some (m.enqueue
        (data.entries.map (fun e => ⟨accountName, e.1, e.2, "", DataChangeType.Delete⟩))) := by
  unfold deleteUserAction
  rw [foldlM_open m _
    (fun e => [(⟨accountName, e.1, e.2, "", DataChangeType.Delete⟩ : LDAPChangeEntry)])]
  · congr 2
    induction data.entries with
    | nil => rfl
    | cons e l ih => simp [List.flatMap_cons, ih]
  · intro evs e
    exact changeAction_open (m.enqueue evs) h _ _ _ _ _

theorem createUserAction_open (m : Monitor F) (h : m.dataChan.closed = false)
    (accountName : String) (data : GoMap String) :
    createUserAction m accountName data =
      some (m.enqueue
        (data.entries.map (fun e => ⟨accountName, e.1, "", e.2, DataChangeType.Create⟩))) := by
  unfold createUserAction
  rw [foldlM_open m _
    (fun e => [(⟨accountName, e.1, "", e.2, DataChangeType.Create⟩ : LDAPChangeEntry)])]
  · congr 2
    induction data.entries with
    | nil => rfl
    | cons e l ih => simp [List.flatMap_cons, ih]
  · intro evs e
    exact changeAction_open (m.enqueue evs) h _ _ _ _ _

theorem diffAllFiledsStep_open (m : Monitor F) (h : m.dataChan.closed = false)
    (accountName : String) (userBefore userAfter : GoMap String) (filed : String) :
    diffAllFiledsStep accountName userBefore userAfter m filed =
      some (m.enqueue (fieldEvents accountName userBefore userAfter m.ignoreFileds filed)) := by
  unfold diffAllFiledsStep fieldEvents
  by_cases hi : filed ∈ m.ignoreFileds
  · simp [hi, enqueue_nil]
  · simp only [hi, if_false, GoMap.index_eq]
    cases hb : userBefore.get? filed <;> cases ha : userAfter.get? filed
    · simp [enqueue_nil]
    · simp [changeAction_open m h]
    · simp [changeAction_open m h]
    · rename_i b a
      by_cases hba : b = a
      · simp [hba, enqueue_nil]
      · simp [hba, changeAction_open m h]

theorem diffAllFileds_open (m : Monitor F) (h : m.dataChan.closed = false)
    (accountName : String) (userBefore userAfter : GoMap String) :
    diffAllFileds m accountName userBefore userAfter =
      some (m.enqueue ((union [getKeysOfMap userBefore, getKeysOfMap userAfter]).flatMap
        (fieldEvents accountName userBefore userAfter m.ignoreFileds))) := by
  unfold diffAllFileds
  exact foldlM_open m _ _ (fun evs filed => diffAllFiledsStep_open (m.enqueue evs) h _ _ _ _) _

theorem diffAccountNameStep_open (m : Monitor F) (h : m.dataChan.closed = false)
    (before after : Snapshot) (accountName : String) :
    diffAccountNameStep before after m accountName =
      some (m.enqueue (entityEvents before after m.ignoreFileds accountName)) := by
  unfold diffAccountNameStep entityEvents
  simp only [GoMap.index_eq]
  cases hb : before.get? accountName <;> cases ha : after.get? accountName
  · simp [enqueue_nil]
  · simp [createUserAction_open m h]
  · simp [deleteUserAction_open m h]
  · simp [diffAllFileds_open m h]

theorem diffAccountName_open (m : Monitor F) (h : m.dataChan.closed = false) :
    diffAccountName m =
      some (m.enqueue (diffEvents m.dataBefore m.dataAfter m.ignoreFileds)) := by
  unfold diffAccountName diffEvents
  exact foldlM_open m _ _ (fun evs k => diffAccountNameStep_open (m.enqueue evs) h _ _ _) _

theorem diff_eq (before after : Snapshot) (ignore : List String) :
    diff before after ignore = diffEvents before after ignore := by
  unfold diff
  rw [diffAccountName_open _ rfl]
  simp [Monitor.enqueue, Monitor.ofSnapshots]

/-! ## Selecting the events of one entity or one field -/

theorem filter_flatMap_key {α β : Type} [DecidableEq α] (l : List α) (hl : l.Nodup)
    (g : α → List β) (key : β → α) (hg : ∀ a, ∀ e ∈ g a, key e = a) (k : α) (q : β → Bool) :
    (l.flatMap g).filter (fun e => decide (key e = k) && q e) =
      if k ∈ l then (g k).filter q else [] := by
  induction l with
  | nil => simp
  | cons a l ih =>
    rw [List.nodup_cons] at hl
    rw [List.flatMap_cons, List.filter_append, ih hl.2]
    by_cases hak : a = k
    · subst hak
      have h1 : (g a).filter (fun e => decide (key e = a) && q e) = (g a).filter q :=
        List.filter_congr (fun e he => by simp [hg a e he])
      simp [h1, hl.1]
    · have h1 : (g a).filter (fun e => decide (key e = k) && q e) = [] := by
        rw [List.filter_eq_nil_iff]
        intro e he
        simp [hg a e he, hak]
      have h2 : (k ∈ a :: l) ↔ k ∈ l := by
        rw [List.mem_cons]
        exact ⟨fun h => h.resolve_left (fun h => hak h.symm), Or.inr⟩
      simp only [h1, List.nil_append, h2]

theorem fieldEvents_filed (accountName : String) (userBefore userAfter : GoMap String)
    (ignore : List String) (filed : String) :
    ∀ e ∈ fieldEvents accountName userBefore userAfter ignore filed,
      e.AccountName = accountName ∧ e.Filed = filed := by
  intro e he
  unfold fieldEvents at he
  split_ifs at he with hi
  · simp at he
  · split at he
    · simp at he; subst he; exact ⟨rfl, rfl⟩
    · simp at he; subst he; exact ⟨rfl, rfl⟩
    · split_ifs at he
      · simp at he
      · simp at he; subst he; exact ⟨rfl, rfl⟩
    · simp at he

theorem entityEvents_accountName (before after : Snapshot) (ignore : List String)
    (accountName : String) :
    ∀ e ∈ entityEvents before after ignore accountName, e.AccountName = accountName := by
  intro e he
  unfold entityEvents at he
  split at he
  · obtain ⟨x, -, rfl⟩ := List.mem_map.1 he
    rfl
  · obtain ⟨x, -, rfl⟩ := List.mem_map.1 he
    rfl
  · obtain ⟨f, -, hf⟩ := List.mem_flatMap.1 he
    exact (fieldEvents_filed _ _ _ _ _ e hf).1
  · simp at he

theorem mem_union_keys {V W : Type} (a : GoMap V) (b : GoMap W) (k : String) :
    k ∈ union [a.keys, b.keys] ↔ (∃ v, a.get? k = some v) ∨ ∃ w, b.get? k = some w := by
  rw [mem_union]
  simp [GoMap.mem_keys_iff]

/-- The events of `diff` for the entity `k` are those of its iteration of the loop. -/
theorem diff_filter_accountName (before after : Snapshot) (ignore : List String) (k : String)
    (q : LDAPChangeEntry → Bool) :
    (diff before after ignore).filter (fun e => decide (e.AccountName = k) && q e) =
      (entityEvents before after ignore k).filter q := by
  rw [diff_eq, diffEvents,
    filter_flatMap_key _ (nodup_union _) _ LDAPChangeEntry.AccountName
      (entityEvents_accountName before after ignore) k q]
  split_ifs with hk
  · rfl
  · rw [getKeysOfMaps_eq, getKeysOfMaps_eq, mem_union_keys] at hk
    have hb : before.get? k = none := by
      cases h : before.get? k with
      | none => rfl
      | some v => exact absurd (Or.inl ⟨v, h⟩) hk
    have ha : after.get? k = none := by
      cases h : after.get? k with
      | none => rfl
      | some v => exact absurd (Or.inr ⟨v, h⟩) hk
    simp [entityEvents, hb, ha]

/-- The events of one `diffAllFileds` run for the field `f` are those of its iteration. -/
theorem fieldEvents_filter_filed (k : String) (ub ua : GoMap String) (ignore : List String)
    (f : String) :
    ((union [getKeysOfMap ub, getKeysOfMap ua]).flatMap (fieldEvents k ub ua ignore)).filter
        (fun e => decide (e.Filed = f)) = fieldEvents k ub ua ignore f := by
  have h := filter_flatMap_key (union [getKeysOfMap ub, getKeysOfMap ua]) (nodup_union _)
    (fieldEvents k ub ua ignore) LDAPChangeEntry.Filed
    (fun a e he => (fieldEvents_filed k ub ua ignore a e he).2) f (fun _ => true)
  simp only [Bool.and_true, List.filter_true] at h
  rw [h]
  split_ifs with hf
  · rfl
  · rw [getKeysOfMap_eq, getKeysOfMap_eq, mem_union_keys] at hf
    have hb : ub.get? f = none := by
      cases h : ub.get? f with
      | none => rfl
      | some v => exact absurd (Or.inl ⟨v, h⟩) hf
    have ha : ua.get? f = none := by
      cases h : ua.get? f with
      | none => rfl
      | some v => exact absurd (Or.inr ⟨v, h⟩) hf
    simp [fieldEvents, hb, ha]

theorem diff_filter_entity (before after : Snapshot) (ignore : List String) (k : String) :
    (diff before after ignore).filter (fun e => decide (e.AccountName = k)) =
      entityEvents before after ignore k := by
  have h := diff_filter_accountName before after ignore k (fun _ => true)
  simpa using h

theorem mem_diff (before after : Snapshot) (ignore : List String) (e : LDAPChangeEntry)
    (he : e ∈ diff before after ignore) : e ∈ entityEvents before after ignore e.AccountName := by
  rw [← diff_filter_entity, List.mem_filter]
  exact ⟨he, by simp⟩

theorem fieldEvents_mirror (k : String) (ub ua : GoMap String) (ignore : List String)
    (f : String) :
    fieldEvents k ua ub ignore f =
      (fieldEvents k ub ua ignore f).map LDAPChangeEntry.mirror := by
  unfold fieldEvents
  by_cases hi : f ∈ ignore
  · simp [hi]
  · simp only [hi, if_false]
    cases ub.get? f <;> cases ua.get? f
    · rfl
    · rfl
    · rfl
    · rename_i b a
      by_cases hba : b = a
      · simp [hba]
      · have hab : ¬ a = b := fun h => hba h.symm
        simp [hba, hab, LDAPChangeEntry.mirror]

theorem union_comm_perm (l₁ l₂ : List String) : (union [l₁, l₂]).Perm (union [l₂, l₁]) := by
  rw [List.perm_ext_iff_of_nodup (nodup_union _) (nodup_union _)]
  intro x
  simp only [mem_union, List.mem_cons, List.mem_singleton, exists_eq_or_imp, exists_eq_left,
    List.not_mem_nil, false_and, exists_false, or_false]
  exact or_comm

theorem entityEvents_mirror (A B : Snapshot) (ignore : List String) (k : String) :
    (entityEvents B A ignore k).Perm
      ((entityEvents A B ignore k).map LDAPChangeEntry.mirror) := by
  unfold entityEvents
  cases A.get? k <;> cases B.get? k
  · simp
  · simp [List.map_map, Function.comp_def, LDAPChangeEntry.mirror]
  · simp [List.map_map, Function.comp_def, LDAPChangeEntry.mirror]
  · rename_i ua ub
    simp only [List.map_flatMap]
    refine ((union_comm_perm _ _).flatMap_right _).trans ?_
    refine List.Perm.flatMap_left _ (fun f _ => ?_)
    rw [fieldEvents_mirror]

theorem fieldEvents_eq_nil (k : String) (ub ua : GoMap String) (ignore : List String)
    (f : String) (h : ub.get? f = ua.get? f) : fieldEvents k ub ua ignore f = [] := by
  unfold fieldEvents
  rw [h]
  cases ua.get? f <;> simp

/-- The three shapes an event of `diffAllFileds` can have. -/
theorem mem_fieldEvents (k : String) (ub ua : GoMap String) (ignore : List String) (f : String)
    (e : LDAPChangeEntry) (he : e ∈ fieldEvents k ub ua ignore f) :
    f ∉ ignore ∧
      ((e.ChangeType = DataChangeType.Delete ∧ ub.get? f = some e.ChangeBefore ∧
          ua.get? f = none ∧ e.ChangeAfter = "") ∨
        (e.ChangeType = DataChangeType.Create ∧ ub.get? f = none ∧
          ua.get? f = some e.ChangeAfter ∧ e.ChangeBefore = "") ∨
        (e.ChangeType = DataChangeType.Modify ∧ ub.get? f = some e.ChangeBefore ∧
          ua.get? f = some e.ChangeAfter ∧ e.ChangeBefore ≠ e.ChangeAfter)) := by
  unfold fieldEvents at he
  by_cases hi : f ∈ ignore
  · simp [hi] at he
  · refine ⟨hi, ?_⟩
    simp only [hi, if_false] at he
    cases hb : ub.get? f <;> cases ha : ua.get? f <;> simp only [hb, ha] at he
    · simp at he
    · simp at he
      subst he
      simp
    · simp at he
      subst he
      simp
    · rename_i b a
      by_cases hba : b = a
      · simp [hba] at he
      · simp [hba] at he
        subst he
        simp [hba]

/-! ## The poll loop -/

theorem pollCycle_spec (m : Monitor F) (h : m.dataChan.closed = false) (S : Snapshot) :
    ∃ m', pollCycle m S = some m' ∧ m'.isClose = m.isClose ∧
      m'.dataChan.closed = false ∧ m'.ignoreFileds = m.ignoreFileds ∧ m'.dataBefore = S ∧
      m'.dataChan.queue = m.dataChan.queue ++
        (if m.dataBefore.len = 0 then [] else diff m.dataBefore S m.ignoreFileds) := by
  unfold pollCycle
  by_cases hlen : m.dataBefore.len = 0
  · simp [hlen, h]
  · have hd := diffAccountName_open { m with dataAfter := S } h
    simp only [beq_iff_eq, hlen, if_false, hd, Option.map_some', diff_eq]
    exact ⟨_, rfl, rfl, h, rfl, rfl, rfl⟩

theorem backgroundMonitor_append (m : Monitor F) (l₁ l₂ : List Snapshot) :
    backgroundMonitor m (l₁ ++ l₂) =
      (backgroundMonitor m l₁).bind (fun m' => backgroundMonitor m' l₂) := by
  induction l₁ generalizing m with
  | nil => simp [backgroundMonitor]
  | cons S l₁ ih =>
    by_cases hc : m.isClose = true
    · cases l₂ <;> simp [backgroundMonitor, hc]
    · simp only [List.cons_append, backgroundMonitor, hc, if_false]
      cases pollCycle m S with
      | none => rfl
      | some m' => simp [ih]

theorem backgroundMonitor_single (m : Monitor F) (h : m.isClose = false) (S : Snapshot) :
    backgroundMonitor m [S] = pollCycle m S := by
  simp only [backgroundMonitor, h]
  cases pollCycle m S <;> simp [backgroundMonitor]

theorem backgroundMonitor_running (m : Monitor F) (h1 : m.isClose = false)
    (h2 : m.dataChan.closed = false) (l : List Snapshot) :
    ∃ m', backgroundMonitor m l = some m' ∧ m'.isClose = false ∧
      m'.dataChan.closed = false ∧ m'.ignoreFileds = m.ignoreFileds := by
  induction l generalizing m with
  | nil => exact ⟨m, rfl, h1, h2, rfl⟩
  | cons S l ih =>
    obtain ⟨m', hp, hc, hd, hi, -, -⟩ := pollCycle_spec m h2 S
    obtain ⟨m'', hb, hc', hd', hi'⟩ := ih m' (hc.trans h1) hd
    refine ⟨m'', ?_, hc', hd', hi'.trans hi⟩
    simp [backgroundMonitor, h1, hp, hb]

theorem strLen_eq_zero (s : String) : strLen s = 0 ↔ s = "" := by
  obtain ⟨cs⟩ := s
  cases cs with
  | nil => exact ⟨fun _ => rfl, fun _ => rfl⟩
  | cons c cs =>
    have hpos := c.utf8Size_pos
    constructor
    · intro h
      simp only [strLen, String.utf8ByteSize_mk, String.utf8Len_cons] at h
      omega
    · intro h
      exact absurd (congrArg String.data h) (by simp)

/-! ## Registry and dispatch -/

theorem GoMap.get?_store {V : Type} (m : GoMap V) (k : String) (v : V) (x : String) :
    (m.store k v).get? x = if x = k then some v else m.get? x := by
  unfold GoMap.get? GoMap.store
  by_cases hx : x = k
  · subst hx
    simp [List.find?_cons]
  · have hk : ¬ k = x := fun h => hx h.symm
    simp only [List.find?_cons, hk, decide_False, List.find?_filter, hx, if_false]
    congr 2
    funext e
    by_cases he : e.1 = x
    · simp [he, hx]
    · simp [he]

theorem GoMap.get?_delete {V : Type} (m : GoMap V) (k : String) (x : String) :
    (m.delete k).get? x = if x = k then none else m.get? x := by
  unfold GoMap.get? GoMap.delete
  by_cases hx : x = k
  · subst hx
    simp
  · simp only [List.find?_filter, hx, if_false]
    congr 2
    funext e
    by_cases he : e.1 = x
    · simp [he, hx]
    · simp [he]

theorem fanOut_eq (m : Monitor F) (data : LDAPChangeEntry) :
    fanOut m data = m.listeners.entries.map (fun e => ⟨e.1, e.2, data⟩) := by
  unfold fanOut
  have h : ∀ (l : List (String × F)) (acc : List (Invocation F)),
      l.foldl (fun started e => started ++ [⟨e.1, e.2, data⟩]) acc =
        acc ++ l.map (fun e => ⟨e.1, e.2, data⟩) := by
    intro l
    induction l with
    | nil => simp
    | cons e l ih => intro acc; simp [ih]
  simpa using h m.listeners.entries []

theorem runActions_append (m : Monitor F) (l₁ l₂ : List (Action F)) :
    runActions m (l₁ ++ l₂) =
      ((runActions (runActions m l₁).1 l₂).1,
        (runActions m l₁).2 ++ (runActions (runActions m l₁).1 l₂).2) := by
  induction l₁ generalizing m with
  | nil => simp [runActions]
  | cons a l₁ ih =>
    cases a with
    | addListener n f => simp only [List.cons_append, runActions, List.append_eq, ih]
    | removeListener n => simp only [List.cons_append, runActions, List.append_eq, ih]
    | receive =>
      simp only [List.cons_append, runActions, List.append_eq]
      cases dispatchStep m with
      | none => simp only [ih]
      | some r => simp only [ih, List.append_assoc]

/-- Draining a queue of `n` entries with `n` receives, the registry being left alone. -/
theorem runActions_drain (m : Monitor F) :
    (runActions m (List.replicate m.dataChan.queue.length Action.receive)).2 =
      m.dataChan.queue.flatMap (fanOut m) := by
  obtain ⟨isClose, conn, cfg, listeners, before, after, ⟨queue, closed⟩, ignore⟩ := m
  induction queue with
  | nil => simp [runActions]
  | cons data rest ih =>
    simp only [List.length_cons, List.replicate_succ, runActions, dispatchStep,
      List.flatMap_cons]
    rw [ih]
    rfl

theorem filter_entries_store {V : Type} (m : GoMap V) (k : String) (v : V) :
    (m.store k v).entries.filter (fun e => decide (e.1 = k)) = [(k, v)] := by
  simp only [GoMap.store, List.filter_cons, decide_True, if_true, List.filter_filter]
  rw [List.filter_eq_nil_iff.2]
  intro e _
  simp

/-! ## The bulk read -/

theorem searchAllStep_err {σ : Type} (dial : LDAPMonitorConfig → Option Conn)
    (hd : ∀ cfg, ∃ conn, dial cfg = some conn) (pageSize : Nat) (searchBase filter : String)
    (attributes : List String) (callback : σ → List Entry → σ) (s : SearchLoop F σ)
    (message : String) :
    ∃ s', searchAllStep dial pageSize searchBase filter attributes callback s
        (SearchResult.err message) = some (s', true) ∧
      s'.cookie = s.cookie ∧ s'.acc = s.acc ∧
      s'.sent = s.sent ++ [⟨searchBase, filter, attributes, pageSize, s.cookie⟩] := by
  unfold searchAllStep
  by_cases hc : stringsContains message "LDAP Result Code 200" = true
  · obtain ⟨conn, hconn⟩ := hd s.m.ldapMonitorConfig
    simp only [hc, if_true, connectLDAPServer, hconn, Option.map_some']
    exact ⟨_, rfl, rfl, rfl, rfl⟩
  · simp only [hc]
    exact ⟨_, rfl, rfl, rfl, rfl⟩

/-- Failed requests do not change what the loop accumulates. -/
theorem searchAllLoop_filter {σ : Type} (dial : LDAPMonitorConfig → Option Conn)
    (hd : ∀ cfg, ∃ conn, dial cfg = some conn) (pageSize : Nat) (searchBase filter : String)
    (attributes : List String) (callback : σ → List Entry → σ) (results : List SearchResult)
    (s₁ s₂ : SearchLoop F σ) (hc : s₁.cookie = s₂.cookie) (ha : s₁.acc = s₂.acc) :
    (searchAllLoop dial pageSize searchBase filter attributes callback s₁ results).map
        SearchLoop.acc =
      (searchAllLoop dial pageSize searchBase filter attributes callback s₂
        (results.filter SearchResult.isResponse)).map SearchLoop.acc := by
  induction results generalizing s₁ s₂ with
  | nil => rfl
  | cons r rest ih =>
    cases r with
    | err message =>
      obtain ⟨s', hs, hc', ha', -⟩ :=
        searchAllStep_err dial hd pageSize searchBase filter attributes callback s₁ message
      simp only [searchAllLoop, hs, List.filter_cons, SearchResult.isResponse]
      exact ih s' s₂ (hc'.trans hc) (ha'.trans ha)
    | response entries paging =>
      simp only [searchAllLoop, List.filter_cons, SearchResult.isResponse, if_true]
      cases paging with
      | none => simp [searchAllStep, ha]
      | some cookie =>
        by_cases hl : cookie.length = 0
        · simp [searchAllStep, hl, ha]
        · simp only [searchAllStep, bne_iff_ne, ne_eq, hl, not_false_eq_true, if_true]
          exact ih _ _ rfl (by simp [ha])

/-! ## Distinct events -/

theorem nodup_flatMap_key {α β : Type} (l : List α) (hl : l.Nodup) (g : α → List β)
    (key : β → α) (hg : ∀ a, ∀ e ∈ g a, key e = a) (h1 : ∀ a ∈ l, (g a).Nodup) :
    (l.flatMap g).Nodup := by
  rw [List.nodup_flatMap]
  refine ⟨h1, ?_⟩
  refine List.Pairwise.imp ?_ hl
  intro a b hab e hea heb
  exact hab ((hg a e hea).symm.trans (hg b e heb))

theorem nodup_fieldEvents_keys (k : String) (ub ua : GoMap String) (ignore : List String)
    (f : String) :
    ((fieldEvents k ub ua ignore f).map (fun e => (e.AccountName, e.Filed))).Nodup := by
  unfold fieldEvents
  split_ifs
  · simp
  · split
    · simp
    · simp
    · split_ifs <;> simp
    · simp

theorem nodup_entityEvents_keys (before after : Snapshot) (ignore : List String) (k : String) :
    ((entityEvents before after ignore k).map (fun e => (e.AccountName, e.Filed))).Nodup := by
  unfold entityEvents
  split
  · rename_i ub _ _
    rw [List.map_map]
    have h : ((fun e : LDAPChangeEntry => (e.AccountName, e.Filed)) ∘
        fun x : String × String => (⟨k, x.1, x.2, "", DataChangeType.Delete⟩ : LDAPChangeEntry)) =
        (fun f => (k, f)) ∘ Prod.fst := rfl
    rw [h, ← List.map_map]
    exact ub.nodupKeys.map (fun a b hab => (Prod.mk.inj hab).2)
  · rename_i ua _ _
    rw [List.map_map]
    have h : ((fun e : LDAPChangeEntry => (e.AccountName, e.Filed)) ∘
        fun x : String × String => (⟨k, x.1, "", x.2, DataChangeType.Create⟩ : LDAPChangeEntry)) =
        (fun f => (k, f)) ∘ Prod.fst := rfl
    rw [h, ← List.map_map]
    exact ua.nodupKeys.map (fun a b hab => (Prod.mk.inj hab).2)
  · rename_i ub ua _ _
    rw [List.map_flatMap]
    refine nodup_flatMap_key _ (nodup_union _) _ Prod.snd ?_
      (fun f _ => nodup_fieldEvents_keys k ub ua ignore f)
    intro f p hp
    obtain ⟨e, he, rfl⟩ := List.mem_map.1 hp
    exact (fieldEvents_filed k ub ua ignore f e he).2
  · simp

/-! ## Construction -/

/-- With no field to ignore, `NewMonitor` returns as soon as the connection succeeds, and the
monitor stores the configuration exactly as it was passed. -/
theorem NewMonitor_of_no_ignore (dial : LDAPMonitorConfig → Option Conn)
    (config : LDAPMonitorConfig) (conn : Conn) (hd : dial config = some conn)
    (hi : config.IgnoreLDAPFileds = []) :
    ∃ m : Monitor F, NewMonitor dial config = some m ∧ m.ldapMonitorConfig = config ∧
      m.ignoreFileds = [] := by
  simp [NewMonitor, NewMonitorBody, connectLDAPServer, hd, hi, GoSet.members]

/-- With a field to ignore, `NewMonitor` does not return: the first `Add` panics. -/
theorem NewMonitor_of_ignore (dial : LDAPMonitorConfig → Option Conn)
    (config : LDAPMonitorConfig) (hi : config.IgnoreLDAPFileds ≠ []) :
    (NewMonitor dial config : Option (Monitor F)) = none := by
  unfold NewMonitor NewMonitorBody connectLDAPServer
  cases hl : config.IgnoreLDAPFileds with
  | nil => exact absurd hl hi
  | cons v rest =>
    cases dial config with
    | none => rfl
    | some conn => simp [GoSet.Add]

/-- The program of `main.go` stops in `NewMonitor`. -/
theorem NewMonitor_mainConfig (dial : LDAPMonitorConfig → Option Conn) :
    (NewMonitor dial mainConfig : Option (Monitor F)) = none :=
  NewMonitor_of_ignore dial mainConfig (by simp [mainConfig])

/-! ## The claims -/

/-- C1 as stated fails: with `"logonCount"` in the ignore set, when the entity `carol` is
present in `before` and absent from `after`, `diffAccountName` sends a `Delete` event whose
`Filed` is `"logonCount"`, through `deleteUserAction`. -/
theorem C1_ignored_field_emitted :
    (⟨"carol", "logonCount", "5", "", DataChangeType.Delete⟩ : LDAPChangeEntry) ∈
        diff Snapshot.carolAndBob (Snapshot.single "bob" "title" "eng") ["logonCount"] ∧
      "logonCount" ∈ ["logonCount"] := by
  decide

/-- C1, amended.  The ignore set applies to `diffAllFileds` only.  No event of the diff for an
entity present in both snapshots has a `Filed` in the ignore set: for such an entity and an
ignored field the diff has no event, and every run of `diffAllFileds` on an open channel
returns and sends only events whose `Filed` is outside the ignore set.  For an entity present
in exactly one snapshot, `deleteUserAction` and `createUserAction` send the event of every
field it holds, whether or not the field is in the ignore set. -/
theorem C1_ignore_set_exclusion (before after : Snapshot) (ignore : List String) :
    (∀ e ∈ diff before after ignore, ∀ ub ua,
        before.get? e.AccountName = some ub → after.get? e.AccountName = some ua →
        e.Filed ∉ ignore) ∧
      (∀ k f ub ua, before.get? k = some ub → after.get? k = some ua → f ∈ ignore →
        (diff before after ignore).filter
          (fun e => decide (e.AccountName = k) && decide (e.Filed = f)) = []) ∧
      (∀ (m : Monitor F) (k : String) (ub ua : GoMap String), m.dataChan.closed = false →
        ∃ evs, diffAllFileds m k ub ua = some (m.enqueue evs) ∧
          ∀ e ∈ evs, e.Filed ∉ m.ignoreFileds) ∧
      (∀ k u f v, u.get? f = some v →
        (before.get? k = some u → after.get? k = none →
          (⟨k, f, v, "", DataChangeType.Delete⟩ : LDAPChangeEntry) ∈
            diff before after ignore) ∧
        (before.get? k = none → after.get? k = some u →
          (⟨k, f, "", v, DataChangeType.Create⟩ : LDAPChangeEntry) ∈
            diff before after ignore)) := by
  refine ⟨?_, ?_, ?_, ?_⟩
  · intro e he ub ua hb ha
    have h := mem_diff before after ignore e he
    simp only [entityEvents, hb, ha] at h
    obtain ⟨f, -, hf⟩ := List.mem_flatMap.1 h
    have hfe := (fieldEvents_filed _ _ _ _ _ e hf).2
    exact hfe ▸ (mem_fieldEvents _ _ _ _ _ e hf).1
  · intro k f ub ua hb ha hf
    rw [diff_filter_accountName]
    simp only [entityEvents, hb, ha]
    rw [fieldEvents_filter_filed]
    simp [fieldEvents, hf]
  · intro m k ub ua hc
    refine ⟨_, diffAllFileds_open m hc k ub ua, ?_⟩
    intro e he
    obtain ⟨f, -, hf⟩ := List.mem_flatMap.1 he
    have hfe := (fieldEvents_filed _ _ _ _ _ e hf).2
    exact hfe ▸ (mem_fieldEvents _ _ _ _ _ e hf).1
  · intro k u f v hv
    have hmem := (GoMap.mem_entries_iff u f v).2 hv
    constructor
    · intro hb ha
      have h : (⟨k, f, v, "", DataChangeType.Delete⟩ : LDAPChangeEntry) ∈
          (diff before after ignore).filter (fun e => decide (e.AccountName = k)) := by
        rw [diff_filter_entity]
        simp only [entityEvents, hb, ha]
        exact List.mem_map.2 ⟨(f, v), hmem, rfl⟩
      exact (List.mem_filter.1 h).1
    · intro hb ha
      have h : (⟨k, f, "", v, DataChangeType.Create⟩ : LDAPChangeEntry) ∈
          (diff before after ignore).filter (fun e => decide (e.AccountName = k)) := by
        rw [diff_filter_entity]
        simp only [entityEvents, hb, ha]
        exact List.mem_map.2 ⟨(f, v), hmem, rfl⟩
      exact (List.mem_filter.1 h).1

/-- C1 (amended) at scenario 3: `carol`'s `logonCount` changes from `"5"` to `"6"` while
`"logonCount"` is ignored, and the diff has no event for it. -/
theorem C1_ignore_set_exclusion_witness :
    (diff (Snapshot.carol "5") (Snapshot.carol "6") ["logonCount"]).filter
        (fun e => decide (e.AccountName = "carol") && decide (e.Filed = "logonCount")) = [] :=
  (C1_ignore_set_exclusion (F := Unit) (Snapshot.carol "5") (Snapshot.carol "6")
    ["logonCount"]).2.1 "carol" "logonCount"
    ((GoMap.empty.store "logonCount" "5").store "title" "eng")
    ((GoMap.empty.store "logonCount" "6").store "title" "eng")
    (by decide) (by decide) (by decide)

/-- C2.  For an entity `k` present in both snapshots and a field `f` outside the ignore set,
the events of the diff for `(k, f)` are: one `Delete` carrying the before value when `f` is
only in `before[k]`; one `Create` carrying the after value when `f` is only in `after[k]`; one
`Modify` carrying both values when `f` is in both with different values; none when the values
are equal or `f` is in neither. -/
theorem C2_field_level_diff (before after : Snapshot) (ignore : List String) (k f : String)
    (ub ua : GoMap String) (hb : before.get? k = some ub) (ha : after.get? k = some ua)
    (hf : f ∉ ignore) :
    (diff before after ignore).filter (fun e => decide (e.AccountName = k) && decide (e.Filed = f)) =
      match ub.get? f, ua.get? f with
      | some b, none => [⟨k, f, b, "", DataChangeType.Delete⟩]
      | none, some a => [⟨k, f, "", a, DataChangeType.Create⟩]
      | some b, some a => if b = a then [] else [⟨k, f, b, a, DataChangeType.Modify⟩]
      | none, none => [] := by
  rw [diff_filter_accountName]
  simp only [entityEvents, hb, ha]
  rw [fieldEvents_filter_filed]
  simp [fieldEvents, hf]

/-- C2 at scenario 1: `alice`'s `title` changes from `"eng"` to `"lead"`. -/
theorem C2_field_level_diff_witness :
    (diff (Snapshot.single "alice" "title" "eng") (Snapshot.single "alice" "title" "lead")
        []).filter (fun e => decide (e.AccountName = "alice") && decide (e.Filed = "title")) =
      [⟨"alice", "title", "eng", "lead", DataChangeType.Modify⟩] :=
  C2_field_level_diff (Snapshot.single "alice" "title" "eng")
    (Snapshot.single "alice" "title" "lead") [] "alice" "title"
    (GoMap.empty.store "title" "eng") (GoMap.empty.store "title" "lead")
    (by decide) (by decide) (by decide)

/-- C3.  For an entity `k` present in exactly one snapshot, with field mapping `u`, the events
of the diff for `k` are, as a multiset, exactly one event per entry of `u` (whose field names
are pairwise distinct): `Delete` events with the field value as `ChangeBefore` and empty
`ChangeAfter` when `k` is only in `before`; `Create` events with empty `ChangeBefore` and the
field value as `ChangeAfter` when `k` is only in `after`. -/
theorem C3_whole_entity_completeness (before after : Snapshot) (ignore : List String)
    (k : String) (u : GoMap String) :
    (before.get? k = some u → after.get? k = none →
        ((diff before after ignore).filter (fun e => decide (e.AccountName = k))).Perm
          (u.entries.map (fun x => ⟨k, x.1, x.2, "", DataChangeType.Delete⟩))) ∧
      (before.get? k = none → after.get? k = some u →
        ((diff before after ignore).filter (fun e => decide (e.AccountName = k))).Perm
          (u.entries.map (fun x => ⟨k, x.1, "", x.2, DataChangeType.Create⟩))) := by
  constructor
  · intro hb ha
    rw [diff_filter_entity]
    simp [entityEvents, hb, ha]
  · intro hb ha
    rw [diff_filter_entity]
    simp [entityEvents, hb, ha]

/-- C3 at scenario 2: `before = {}` and `after = {"bob": {"title": "eng"}}` give one `Create`
event for `bob`/`title`. -/
theorem C3_whole_entity_completeness_witness :
    ((diff GoMap.empty (Snapshot.single "bob" "title" "eng") []).filter
        (fun e => decide (e.AccountName = "bob"))).Perm
      [⟨"bob", "title", "", "eng", DataChangeType.Create⟩] :=
  (C3_whole_entity_completeness GoMap.empty (Snapshot.single "bob" "title" "eng") [] "bob"
    (GoMap.empty.store "title" "eng")).2 (by decide) (by decide)

/-- C4.  Symmetry: the events of `diff(B, A)` are, as a multiset, the events of `diff(A, B)`
with `Create` and `Delete` exchanged, `Modify` kept, and `ChangeBefore` and `ChangeAfter`
exchanged in every event. -/
theorem C4_symmetry (A B : Snapshot) (ignore : List String) :
    (diff B A ignore).Perm ((diff A B ignore).map LDAPChangeEntry.mirror) := by
  rw [diff_eq, diff_eq, diffEvents, diffEvents, List.map_flatMap]
  refine ((union_comm_perm _ _).flatMap_right _).trans ?_
  exact List.Perm.flatMap_left _ (fun k _ => entityEvents_mirror A B ignore k)

/-- C5.  Idempotence: `diff(A, A)` sends nothing; and an entity present in both snapshots whose
two field mappings hold the same value (or no value) for every field name contributes no
event. -/
theorem C5_idempotence (A : Snapshot) (ignore : List String) :
    diff A A ignore = [] ∧
      ∀ (before after : Snapshot) (k : String) (ub ua : GoMap String),
        before.get? k = some ub → after.get? k = some ua →
        (∀ f, ub.get? f = ua.get? f) →
        (diff before after ignore).filter (fun e => decide (e.AccountName = k)) = [] := by
  constructor
  · rw [diff_eq, diffEvents, List.flatMap_eq_nil_iff]
    intro k _
    unfold entityEvents
    cases A.get? k with
    | none => rfl
    | some u =>
      simp only
      rw [List.flatMap_eq_nil_iff]
      exact fun f _ => fieldEvents_eq_nil k u u ignore f rfl
  · intro before after k ub ua hb ha h
    rw [diff_filter_entity]
    simp only [entityEvents, hb, ha]
    rw [List.flatMap_eq_nil_iff]
    exact fun f _ => fieldEvents_eq_nil k ub ua ignore f (h f)

/-- C5 at a concrete pair: `carol` has the same field mapping in both snapshots while `bob`
appears, so the diff is not empty but holds no event for `carol`. -/
theorem C5_idempotence_witness :
    diff (Snapshot.carol "5") (Snapshot.carol "5") ["logonCount"] = [] ∧
      (diff (Snapshot.carol "5") Snapshot.carolAndBob []).filter
        (fun e => decide (e.AccountName = "carol")) = [] :=
  ⟨(C5_idempotence (Snapshot.carol "5") ["logonCount"]).1,
    (C5_idempotence (Snapshot.carol "5") []).2 (Snapshot.carol "5") Snapshot.carolAndBob "carol"
      ((GoMap.empty.store "logonCount" "5").store "title" "eng")
      ((GoMap.empty.store "logonCount" "5").store "title" "eng")
      (by decide) (by decide) (fun _ => rfl)⟩

/-- C6.  Baseline rule: a poll cycle run while `dataBefore` is empty returns, sends nothing
(the channel is unchanged) and leaves `dataBefore` equal to the fetched snapshot; for a running
monitor this is one iteration of `backgroundMonitor`. -/
theorem C6_baseline_rule (m : Monitor F) (S : Snapshot) (h : m.dataBefore.len = 0) :
    ∃ m', pollCycle m S = some m' ∧ m'.dataChan = m.dataChan ∧ m'.dataBefore = S ∧
      (m.isClose = false → backgroundMonitor m [S] = some m') := by
  refine ⟨{ m with dataAfter := S, dataBefore := S }, ?_, rfl, rfl, ?_⟩
  · simp [pollCycle, h]
  · intro hc
    rw [backgroundMonitor_single m hc]
    simp [pollCycle, h]

/-- C6 on a fresh monitor whose first fetched snapshot is `{"bob": {"title": "eng"}}`. -/
theorem C6_baseline_rule_witness :
    ∃ m', pollCycle (Monitor.ofSnapshots GoMap.empty GoMap.empty [])
          (Snapshot.single "bob" "title" "eng") = some m' ∧
      m'.dataChan = (Monitor.ofSnapshots GoMap.empty GoMap.empty []).dataChan ∧
      m'.dataBefore = Snapshot.single "bob" "title" "eng" ∧
      ((Monitor.ofSnapshots GoMap.empty GoMap.empty []).isClose = false →
        backgroundMonitor (Monitor.ofSnapshots GoMap.empty GoMap.empty [])
          [Snapshot.single "bob" "title" "eng"] = some m') :=
  C6_baseline_rule (Monitor.ofSnapshots GoMap.empty GoMap.empty [])
    (Snapshot.single "bob" "title" "eng") (by decide)

/-- C7 as stated fails: on a fresh monitor that fetches `{}` and then
`{"bob": {"title": "eng"}}`, the second cycle sends nothing, while the diff of the two
snapshots holds one `Create` event. -/
theorem C7_empty_previous_snapshot_counterexample :
    ∃ m1 m2,
      backgroundMonitor (Monitor.ofSnapshots GoMap.empty GoMap.empty []) [GoMap.empty] = some m1 ∧
      backgroundMonitor (Monitor.ofSnapshots GoMap.empty GoMap.empty [])
        [GoMap.empty, Snapshot.single "bob" "title" "eng"] = some m2 ∧
      m2.dataChan.queue = m1.dataChan.queue ∧
      diff GoMap.empty (Snapshot.single "bob" "title" "eng") [] =
        [⟨"bob", "title", "", "eng", DataChangeType.Create⟩] ∧
      m2.dataChan.queue ≠
        m1.dataChan.queue ++ diff GoMap.empty (Snapshot.single "bob" "title" "eng") [] :=
  ⟨_, _, rfl, rfl, rfl, by decide, by decide⟩

/-- C7, amended.  For a running monitor with an open channel and every sequence of fetched
snapshots, every cycle other than the first returns; it sends exactly the events of
`diff(S(k-1), S(k), ignore)` when the previous snapshot `S(k-1)` is not empty and nothing when
`S(k-1)` is empty; afterwards the retained `before` is `S(k)`. -/
theorem C7_poll_step_after_baseline (m0 : Monitor F) (h1 : m0.isClose = false)
    (h2 : m0.dataChan.closed = false) (pre : List Snapshot) (Sprev Scur : Snapshot) :
    ∃ m1 m2, backgroundMonitor m0 (pre ++ [Sprev]) = some m1 ∧
      backgroundMonitor m0 (pre ++ [Sprev, Scur]) = some m2 ∧
      m2.dataChan.queue = m1.dataChan.queue ++
        (if Sprev.len = 0 then [] else diff Sprev Scur m0.ignoreFileds) ∧
      m2.dataBefore = Scur := by
  obtain ⟨ma, ha, hca, hda, hia⟩ := backgroundMonitor_running m0 h1 h2 pre
  obtain ⟨m1, hp1, hc1, hd1, hi1, hb1, -⟩ := pollCycle_spec ma hda Sprev
  obtain ⟨m2, hp2, -, -, -, hb2, hq2⟩ := pollCycle_spec m1 hd1 Scur
  have e1 : backgroundMonitor m0 (pre ++ [Sprev]) = some m1 := by
    rw [backgroundMonitor_append, ha, Option.some_bind, backgroundMonitor_single ma hca, hp1]
  refine ⟨m1, m2, e1, ?_, ?_, hb2⟩
  · have hl : pre ++ [Sprev, Scur] = (pre ++ [Sprev]) ++ [Scur] := by simp
    rw [hl, backgroundMonitor_append, e1, Option.some_bind,
      backgroundMonitor_single m1 (hc1.trans hca), hp2]
  · rw [hq2, hb1, hi1, hia]

/-- C7 (amended) on a fresh monitor fetching scenario 1's snapshots: the second cycle sends
the `Modify` event of `alice`'s `title`. -/
theorem C7_poll_step_after_baseline_witness :
    ∃ m1 m2,
      backgroundMonitor (Monitor.ofSnapshots GoMap.empty GoMap.empty [])
        ([] ++ [Snapshot.single "alice" "title" "eng"]) = some m1 ∧
      backgroundMonitor (Monitor.ofSnapshots GoMap.empty GoMap.empty [])
        ([] ++ [Snapshot.single "alice" "title" "eng",
          Snapshot.single "alice" "title" "lead"]) = some m2 ∧
      m2.dataChan.queue = m1.dataChan.queue ++
        (if (Snapshot.single "alice" "title" "eng").len = 0 then []
          else diff (Snapshot.single "alice" "title" "eng")
            (Snapshot.single "alice" "title" "lead")
            (Monitor.ofSnapshots GoMap.empty GoMap.empty []).ignoreFileds) ∧
      m2.dataBefore = Snapshot.single "alice" "title" "lead" :=
  C7_poll_step_after_baseline (Monitor.ofSnapshots GoMap.empty GoMap.empty []) rfl rfl []
    (Snapshot.single "alice" "title" "eng") (Snapshot.single "alice" "title" "lead")

/-- C8.  Every `Create` event of the diff has an empty `ChangeBefore` and every `Delete`
event has an empty `ChangeAfter`. -/
theorem C8_empty_side_of_create_delete (before after : Snapshot) (ignore : List String)
    (e : LDAPChangeEntry) (he : e ∈ diff before after ignore) :
    (e.ChangeType = DataChangeType.Create → e.ChangeBefore = "") ∧
      (e.ChangeType = DataChangeType.Delete → e.ChangeAfter = "") := by
  have h := mem_diff before after ignore e he
  unfold entityEvents at h
  split at h
  · obtain ⟨x, -, hx⟩ := List.mem_map.1 h
    rw [← hx]
    simp
  · obtain ⟨x, -, hx⟩ := List.mem_map.1 h
    rw [← hx]
    simp
  · obtain ⟨f, -, hf⟩ := List.mem_flatMap.1 h
    obtain ⟨-, h1 | h1 | h1⟩ := mem_fieldEvents _ _ _ _ _ e hf
    · simp [h1.1, h1.2.2.2]
    · simp [h1.1, h1.2.2.2]
    · simp [h1.1]
  · simp at h

/-- C8 at the `Create` event of scenario 2. -/
theorem C8_empty_side_of_create_delete_witness :
    ((⟨"bob", "title", "", "eng", DataChangeType.Create⟩ : LDAPChangeEntry).ChangeType =
        DataChangeType.Create →
      (⟨"bob", "title", "", "eng", DataChangeType.Create⟩ : LDAPChangeEntry).ChangeBefore = "") ∧
    ((⟨"bob", "title", "", "eng", DataChangeType.Create⟩ : LDAPChangeEntry).ChangeType =
        DataChangeType.Delete →
      (⟨"bob", "title", "", "eng", DataChangeType.Create⟩ : LDAPChangeEntry).ChangeAfter = "") :=
  C8_empty_side_of_create_delete GoMap.empty (Snapshot.single "bob" "title" "eng") []
    ⟨"bob", "title", "", "eng", DataChangeType.Create⟩ (by decide)

/-- C9 as stated fails: when `alice`'s `title` is present with the empty string in `before`
and is `"lead"` in `after`, the diff sends a `Modify` event whose `ChangeBefore` is empty. -/
theorem C9_empty_value_counterexample :
    ¬ ∀ e ∈ diff (Snapshot.single "alice" "title" "") (Snapshot.single "alice" "title" "lead") [],
      e.ChangeType = DataChangeType.Modify →
        e.ChangeBefore ≠ "" ∧ e.ChangeAfter ≠ "" ∧ e.ChangeBefore ≠ e.ChangeAfter := by
  decide

/-- C9, amended.  Every `Modify` event of the diff has `ChangeBefore ≠ ChangeAfter`, its entity
is present in both snapshots, and `ChangeBefore` and `ChangeAfter` are the values its field
holds in `before` and in `after`; so each is non-empty exactly when the stored value is. -/
theorem C9_modify_shape (before after : Snapshot) (ignore : List String)
    (e : LDAPChangeEntry) (he : e ∈ diff before after ignore)
    (hm : e.ChangeType = DataChangeType.Modify) :
    e.ChangeBefore ≠ e.ChangeAfter ∧
      ∃ ub ua, before.get? e.AccountName = some ub ∧ after.get? e.AccountName = some ua ∧
        ub.get? e.Filed = some e.ChangeBefore ∧ ua.get? e.Filed = some e.ChangeAfter := by
  have h := mem_diff before after ignore e he
  unfold entityEvents at h
  split at h
  · obtain ⟨x, -, hx⟩ := List.mem_map.1 h
    rw [← hx] at hm
    simp at hm
  · obtain ⟨x, -, hx⟩ := List.mem_map.1 h
    rw [← hx] at hm
    simp at hm
  · rename_i ub ua hb ha
    obtain ⟨f, -, hf⟩ := List.mem_flatMap.1 h
    have hfe := (fieldEvents_filed _ _ _ _ _ e hf).2
    obtain ⟨-, h1 | h1 | h1⟩ := mem_fieldEvents _ _ _ _ _ e hf
    · simp [h1.1] at hm
    · simp [h1.1] at hm
    · exact ⟨h1.2.2.2, ub, ua, hb, ha, hfe ▸ h1.2.1, hfe ▸ h1.2.2.1⟩
  · simp at h

/-- C9 (amended) at the `Modify` event of scenario 1. -/
theorem C9_modify_shape_witness :
    (⟨"alice", "title", "eng", "lead", DataChangeType.Modify⟩ : LDAPChangeEntry).ChangeBefore ≠
        (⟨"alice", "title", "eng", "lead", DataChangeType.Modify⟩ : LDAPChangeEntry).ChangeAfter ∧
      ∃ ub ua,
        (Snapshot.single "alice" "title" "eng").get?
          (⟨"alice", "title", "eng", "lead", DataChangeType.Modify⟩ :
            LDAPChangeEntry).AccountName = some ub ∧
        (Snapshot.single "alice" "title" "lead").get?
          (⟨"alice", "title", "eng", "lead", DataChangeType.Modify⟩ :
            LDAPChangeEntry).AccountName = some ua ∧
        ub.get? (⟨"alice", "title", "eng", "lead", DataChangeType.Modify⟩ :
            LDAPChangeEntry).Filed =
          some (⟨"alice", "title", "eng", "lead", DataChangeType.Modify⟩ :
            LDAPChangeEntry).ChangeBefore ∧
        ua.get? (⟨"alice", "title", "eng", "lead", DataChangeType.Modify⟩ :
            LDAPChangeEntry).Filed =
          some (⟨"alice", "title", "eng", "lead", DataChangeType.Modify⟩ :
            LDAPChangeEntry).ChangeAfter :=
  C9_modify_shape (Snapshot.single "alice" "title" "eng")
    (Snapshot.single "alice" "title" "lead") []
    ⟨"alice", "title", "eng", "lead", DataChangeType.Modify⟩ (by decide) rfl

/-- C10.  `AddListener` and `RemoveListener` return an error exactly when the name is the
empty string, and when they return an error the monitor, hence its listener registry, is
unchanged. -/
theorem C10_listener_name_validation (m : Monitor F) (name : String) (f : F) :
    ((AddListener m name f).2 ≠ none ↔ name = "") ∧
      ((RemoveListener m name).2 ≠ none ↔ name = "") ∧
      ((AddListener m name f).2 ≠ none → (AddListener m name f).1 = m) ∧
      ((RemoveListener m name).2 ≠ none → (RemoveListener m name).1 = m) := by
  unfold AddListener RemoveListener
  by_cases h : strLen name = 0
  · have hn := (strLen_eq_zero name).1 h
    subst hn
    simp [h]
  · have hn : ¬ name = "" := fun hn => h ((strLen_eq_zero name).2 hn)
    simp [h, hn]

/-- C10 at the empty name: both calls return an error and leave the monitor as it was. -/
theorem C10_listener_name_validation_witness :
    ((AddListener (Monitor.ofSnapshots GoMap.empty GoMap.empty []) "" ()).2 ≠ none ↔
        ("" : String) = "") ∧
      ((RemoveListener (Monitor.ofSnapshots GoMap.empty GoMap.empty []) "").2 ≠ none ↔
        ("" : String) = "") ∧
      ((AddListener (Monitor.ofSnapshots GoMap.empty GoMap.empty []) "" ()).2 ≠ none →
        (AddListener (Monitor.ofSnapshots GoMap.empty GoMap.empty []) "" ()).1 =
          Monitor.ofSnapshots GoMap.empty GoMap.empty []) ∧
      ((RemoveListener (Monitor.ofSnapshots GoMap.empty GoMap.empty []) "").2 ≠ none →
        (RemoveListener (Monitor.ofSnapshots GoMap.empty GoMap.empty []) "").1 =
          Monitor.ofSnapshots GoMap.empty GoMap.empty []) :=
  C10_listener_name_validation (Monitor.ofSnapshots GoMap.empty GoMap.empty []) "" ()

/-- C11.  In every sequential interleaving of `AddListener`/`RemoveListener` calls and
receives, a receive that finds `data` at the head of the queue removes it and starts exactly
one invocation with `data` per entry of the registry as it is at that moment (registry names
are pairwise distinct), after the invocations started before.  Hence a listener registered
under a non-empty name while `n` entries are queued and none has been received is invoked for
each of the `n` entries, once and in order, by the `n` receives that follow. -/
theorem C11_dispatch_reads_registry_per_event (m : Monitor F) (pre : List (Action F))
    (data : LDAPChangeEntry) (rest : List LDAPChangeEntry)
    (h : (runActions m pre).1.dataChan.queue = data :: rest) :
    ((runActions m (pre ++ [Action.receive])).1.dataChan.queue = rest ∧
      (runActions m (pre ++ [Action.receive])).1.listeners = (runActions m pre).1.listeners ∧
      (runActions m (pre ++ [Action.receive])).2 =
        (runActions m pre).2 ++
          (runActions m pre).1.listeners.entries.map (fun e => ⟨e.1, e.2, data⟩)) ∧
    ∀ (name : String) (f : F), name ≠ "" →
      (runActions m (pre ++ Action.addListener name f ::
          List.replicate (data :: rest).length Action.receive)).2.filter
            (fun i => decide (i.listenerName = name)) =
        (runActions m pre).2.filter (fun i => decide (i.listenerName = name)) ++
          (data :: rest).map (fun e => ⟨name, f, e⟩) := by
  constructor
  · rw [runActions_append]
    simp [runActions, dispatchStep, h, fanOut_eq]
  · intro name f hname
    have hlen : ¬ strLen name = 0 := fun hz => hname ((strLen_eq_zero name).1 hz)
    have hstep : ∀ l, runActions (runActions m pre).1 (Action.addListener name f :: l) =
        runActions (AddListener (runActions m pre).1 name f).1 l := fun _ => rfl
    rw [runActions_append, hstep]
    simp only [List.filter_append]
    congr 1
    have hq : (AddListener (runActions m pre).1 name f).1.dataChan.queue = data :: rest := by
      simp [AddListener, hlen, h]
    have hl : (AddListener (runActions m pre).1 name f).1.listeners =
        (runActions m pre).1.listeners.store name f := by
      simp [AddListener, hlen]
    have hd := runActions_drain (AddListener (runActions m pre).1 name f).1
    rw [hq] at hd
    rw [hd]
    generalize (AddListener (runActions m pre).1 name f).1 = m' at hl
    generalize data :: rest = q
    induction q with
    | nil => rfl
    | cons e q ih =>
      rw [List.flatMap_cons, List.filter_append, ih, fanOut_eq, hl, List.map_cons]
      have hf := filter_entries_store (runActions m pre).1.listeners name f
      rw [List.filter_map]
      simp only [Function.comp_def]
      rw [hf]
      rfl

/-- C11 at scenario 4: three entries are queued, then `late` is registered, then the three
entries are received; `late` is invoked for all three. -/
theorem C11_dispatch_reads_registry_per_event_witness :
    (runActions
        ((Monitor.ofSnapshots GoMap.empty GoMap.empty []).enqueue
          [⟨"a", "title", "", "x", DataChangeType.Create⟩,
            ⟨"b", "title", "", "y", DataChangeType.Create⟩,
            ⟨"c", "title", "", "z", DataChangeType.Create⟩])
        ([] ++ Action.addListener "late" () :: List.replicate 3 Action.receive)).2.filter
          (fun i => decide (i.listenerName = "late")) =
      [] ++ [⟨"late", (), ⟨"a", "title", "", "x", DataChangeType.Create⟩⟩,
        ⟨"late", (), ⟨"b", "title", "", "y", DataChangeType.Create⟩⟩,
        ⟨"late", (), ⟨"c", "title", "", "z", DataChangeType.Create⟩⟩] :=
  (C11_dispatch_reads_registry_per_event
    ((Monitor.ofSnapshots GoMap.empty GoMap.empty []).enqueue
      [⟨"a", "title", "", "x", DataChangeType.Create⟩,
        ⟨"b", "title", "", "y", DataChangeType.Create⟩,
        ⟨"c", "title", "", "z", DataChangeType.Create⟩])
    [] ⟨"a", "title", "", "x", DataChangeType.Create⟩
    [⟨"b", "title", "", "y", DataChangeType.Create⟩,
      ⟨"c", "title", "", "z", DataChangeType.Create⟩] rfl).2 "late" () (by decide)

/-- C16.  For a non-empty name, after `AddListener(name, f)` the registry maps `name` to `f`
whatever it held before, after `RemoveListener(name)` it has no entry for `name`, and in both
cases the entry under every other name is what it was. -/
theorem C16_registry_update_and_frame (m : Monitor F) (name : String) (f : F)
    (hname : name ≠ "") :
    (AddListener m name f).1.listeners.get? name = some f ∧
      (RemoveListener m name).1.listeners.get? name = none ∧
      ∀ other, other ≠ name →
        (AddListener m name f).1.listeners.get? other = m.listeners.get? other ∧
        (RemoveListener m name).1.listeners.get? other = m.listeners.get? other := by
  have hlen : ¬ strLen name = 0 := fun hz => hname ((strLen_eq_zero name).1 hz)
  refine ⟨?_, ?_, fun other ho => ⟨?_, ?_⟩⟩
  · simp [AddListener, hlen, GoMap.get?_store]
  · simp [RemoveListener, hlen, GoMap.get?_delete]
  · simp [AddListener, hlen, GoMap.get?_store, ho]
  · simp [RemoveListener, hlen, GoMap.get?_delete, ho]

/-- C16 on a registry holding `first` and `second`: registering `first` again overwrites it,
removing `first` deletes it, and `second` keeps its callback. -/
theorem C16_registry_update_and_frame_witness :
    (AddListener (AddListener (AddListener (Monitor.ofSnapshots GoMap.empty GoMap.empty [])
        "first" ()).1 "second" ()).1 "first" ()).1.listeners.get? "first" = some () ∧
      (RemoveListener (AddListener (AddListener (Monitor.ofSnapshots GoMap.empty GoMap.empty [])
        "first" ()).1 "second" ()).1 "first").1.listeners.get? "first" = none ∧
      ∀ other, other ≠ "first" →
        (AddListener (AddListener (AddListener (Monitor.ofSnapshots GoMap.empty GoMap.empty [])
          "first" ()).1 "second" ()).1 "first" ()).1.listeners.get? other =
          (AddListener (AddListener (Monitor.ofSnapshots GoMap.empty GoMap.empty [])
            "first" ()).1 "second" ()).1.listeners.get? other ∧
        (RemoveListener (AddListener (AddListener (Monitor.ofSnapshots GoMap.empty GoMap.empty [])
          "first" ()).1 "second" ()).1 "first").1.listeners.get? other =
          (AddListener (AddListener (Monitor.ofSnapshots GoMap.empty GoMap.empty [])
            "first" ()).1 "second" ()).1.listeners.get? other :=
  C16_registry_update_and_frame
    (AddListener (AddListener (Monitor.ofSnapshots GoMap.empty GoMap.empty [])
      "first" ()).1 "second" ()).1 "first" () (by decide)

/-- C12.  `Close` is idempotent: whenever a call of `Close` returns, a second call returns and
leaves the monitor (closed flag, connection, event queue) exactly as the first call left it,
so the channel is not closed a second time; on a monitor that is already closed or whose
connection is already closing `Close` changes nothing; and `Close` returns on every monitor
whose channel is still open. -/
theorem C12_close_idempotent (m : Monitor F) :
    (∀ m', Close m = some m' → Close m' = some m') ∧
      (m.isClose = true ∨ m.conn.closing = true → Close m = some m) ∧
      (m.dataChan.closed = false → ∃ m', Close m = some m') := by
  refine ⟨?_, ?_, ?_⟩
  · intro m' h
    unfold Close at h
    by_cases hg : (m.isClose || m.conn.IsClosing) = true
    · rw [if_pos hg] at h
      cases h
      simp [Close, hg]
    · rw [if_neg hg] at h
      cases hc : m.dataChan.closed
      · simp [Chan.close, hc] at h
        subst h
        simp [Close]
      · simp [Chan.close, hc] at h
  · intro h
    unfold Close Conn.IsClosing
    rcases h with h | h <;> simp [h]
  · intro h
    unfold Close
    by_cases hg : (m.isClose || m.conn.IsClosing) = true
    · exact ⟨m, by rw [if_pos hg]⟩
    · rw [if_neg hg]
      simp [Chan.close, h]

/-- C12 on a running monitor: the first `Close` closes it, the second changes nothing. -/
theorem C12_close_idempotent_witness :
    (∀ m', Close (Monitor.ofSnapshots GoMap.empty GoMap.empty []) = some m' →
        Close m' = some m') ∧
      ((Monitor.ofSnapshots GoMap.empty GoMap.empty []).isClose = true ∨
          (Monitor.ofSnapshots GoMap.empty GoMap.empty []).conn.closing = true →
        Close (Monitor.ofSnapshots GoMap.empty GoMap.empty []) =
          some (Monitor.ofSnapshots GoMap.empty GoMap.empty [])) ∧
      ((Monitor.ofSnapshots GoMap.empty GoMap.empty []).dataChan.closed = false →
        ∃ m', Close (Monitor.ofSnapshots GoMap.empty GoMap.empty []) = some m') :=
  C12_close_idempotent (Monitor.ofSnapshots GoMap.empty GoMap.empty [])

/-- C13 as stated fails: on a monitor that is not marked closed but whose connection is
already closing, `Close` returns without marking the monitor closed and without closing the
channel, and the poll loop goes on to process the next fetched snapshot. -/
theorem C13_closing_connection_counterexample :
    Monitor.connectionLost.isClose = false ∧
      ∃ m', Close Monitor.connectionLost = some m' ∧ m'.isClose = false ∧
        m'.dataChan.closed = false ∧
        (backgroundMonitor m' [Snapshot.single "bob" "title" "eng"]).map Monitor.dataBefore =
          some (Snapshot.single "bob" "title" "eng") :=
  ⟨rfl, _, rfl, rfl, rfl, by decide⟩

/-- C13, amended.  For a monitor that is not marked closed: when its connection is not
closing, after `Close` returns the monitor is marked closed and the channel is closed, so the
poll loop stops before processing any further fetched snapshot, and `Close` does return when
the channel is open; when its connection is already closing, `Close` returns the monitor
unchanged. -/
theorem C13_close_postcondition (m : Monitor F) (h : m.isClose = false) :
    (m.conn.closing = false →
        (∀ m', Close m = some m' →
          m'.isClose = true ∧ m'.dataChan.closed = true ∧
            ∀ fetched, backgroundMonitor m' fetched = some m') ∧
        (m.dataChan.closed = false → ∃ m', Close m = some m')) ∧
      (m.conn.closing = true → Close m = some m) := by
  constructor
  · intro hc
    have hg : ¬ (m.isClose || m.conn.IsClosing) = true := by simp [h, hc, Conn.IsClosing]
    constructor
    · intro m' hm
      unfold Close at hm
      rw [if_neg hg] at hm
      cases hd : m.dataChan.closed
      · simp [Chan.close, hd] at hm
        subst hm
        refine ⟨rfl, rfl, fun fetched => ?_⟩
        cases fetched <;> simp [backgroundMonitor]
      · simp [Chan.close, hd] at hm
    · intro hd
      unfold Close
      rw [if_neg hg]
      simp [Chan.close, hd]
  · intro hc
    simp [Close, Conn.IsClosing, hc]

/-- C13 (amended) on a running monitor with a live connection. -/
theorem C13_close_postcondition_witness :
    ((Monitor.ofSnapshots GoMap.empty GoMap.empty []).conn.closing = false →
        (∀ m', Close (Monitor.ofSnapshots GoMap.empty GoMap.empty []) = some m' →
          m'.isClose = true ∧ m'.dataChan.closed = true ∧
            ∀ fetched, backgroundMonitor m' fetched = some m') ∧
        ((Monitor.ofSnapshots GoMap.empty GoMap.empty []).dataChan.closed = false →
          ∃ m', Close (Monitor.ofSnapshots GoMap.empty GoMap.empty []) = some m')) ∧
      ((Monitor.ofSnapshots GoMap.empty GoMap.empty []).conn.closing = true →
        Close (Monitor.ofSnapshots GoMap.empty GoMap.empty []) =
          some (Monitor.ofSnapshots GoMap.empty GoMap.empty [])) :=
  C13_close_postcondition (Monitor.ofSnapshots GoMap.empty GoMap.empty []) rfl

/-- C14 as stated fails: two calls of `StartMonitor` leave two poll loops and two dispatch
loops. -/
theorem C14_second_start_counterexample :
    (StartMonitor (StartMonitor
        ⟨Monitor.ofSnapshots GoMap.empty GoMap.empty [], []⟩)).goroutines.count
          Goroutine.backgroundMonitor = 2 ∧
      (StartMonitor (StartMonitor
        ⟨Monitor.ofSnapshots GoMap.empty GoMap.empty [], []⟩)).goroutines.count
          Goroutine.dispatch = 2 := by
  decide

/-- C14, amended.  Every call of `StartMonitor` launches one more poll loop and one more
dispatch loop, whether or not the monitor is already running, and leaves the monitor itself
unchanged: after `n` calls there are `n` more of each. -/
theorem C14_start_launches_each_time (p : Process F) (n : Nat) :
    (StartMonitor^[n] p).goroutines.count Goroutine.backgroundMonitor =
        p.goroutines.count Goroutine.backgroundMonitor + n ∧
      (StartMonitor^[n] p).goroutines.count Goroutine.dispatch =
        p.goroutines.count Goroutine.dispatch + n ∧
      (StartMonitor^[n] p).monitor = p.monitor := by
  induction n with
  | zero => simp
  | succ n ih =>
    rw [Function.iterate_succ_apply']
    obtain ⟨h1, h2, h3⟩ := ih
    refine ⟨?_, ?_, ?_⟩
    · simp only [StartMonitor, List.count_append, h1]
      simp [List.count_cons]
      omega
    · simp only [StartMonitor, List.count_append, h2]
      simp [List.count_cons]
      omega
    · simpa [StartMonitor] using h3

/-- C15 (evaluation of the code at the failing input).  For a configuration that names no
field to ignore and leaves `RefreshPeriodInSecond` at `0`, `NewMonitor` returns; it has set
its own parameter `config` to 20 seconds, but the monitor it returns stores, and the poll loop
sleeps for, `0` seconds. -/
theorem C15_default_period_not_stored :
    (NewMonitor dialOk (configWithPeriod 0) : Option (Monitor Unit)).map sleepSeconds = some 0 ∧
      (NewMonitorBody dialOk (configWithPeriod 0) :
        Option (Monitor Unit × LDAPMonitorConfig)).map
          (fun r => r.2.RefreshPeriodInSecond) = some 20 := by
  decide

/-- C17 as stated fails: in the read `interruptedRead` the request that follows the network
error carries the cookie `[1]` of the first page, not an empty cookie, and the snapshot
returned holds `alice`, collected before the error, next to `bob`. -/
theorem C17_retry_keeps_cookie_counterexample :
    (getAllData dialOk (Monitor.ofSnapshots GoMap.empty GoMap.empty []) interruptedRead).map
        (fun s => (s.sent.map SearchRequest.Cookie, (s.acc.get? "alice").isSome,
          (s.acc.get? "bob").isSome)) =
      some ([[], [1], [1]], true, true) := by
  decide

/-- C17, amended.  When the reconnect succeeds, a failed page request, whatever its error,
leaves the loop running with the paging cookie and the accumulated entries unchanged: the
failed request and the next one carry the same cookie.  The snapshot `getAllData` finally
returns is the one it returns for the same responses without the failed requests: it is built
from every page received, those received before an error included. -/
theorem C17_retry_resumes_read (dial : LDAPMonitorConfig → Option Conn)
    (hd : ∀ cfg, ∃ conn, dial cfg = some conn) (m : Monitor F) (results : List SearchResult) :
    (∀ (s : SearchLoop F Snapshot) (message : String),
        ∃ s', searchAllStep dial 512 m.ldapMonitorConfig.BaseDN "(objectClass=*)" []
            getAllDataCallback s (SearchResult.err message) = some (s', true) ∧
          s'.cookie = s.cookie ∧ s'.acc = s.acc ∧
          s'.sent = s.sent ++
            [⟨m.ldapMonitorConfig.BaseDN, "(objectClass=*)", [], 512, s.cookie⟩]) ∧
      (getAllData dial m results).map SearchLoop.acc =
        (getAllData dial m (results.filter SearchResult.isResponse)).map SearchLoop.acc := by
  constructor
  · intro s message
    exact searchAllStep_err dial hd _ _ _ _ _ s message
  · unfold getAllData searchAll
    exact searchAllLoop_filter dial hd _ _ _ _ _ results _ _ rfl rfl

/-- C17 (amended) on `interruptedRead`, with a dial that succeeds. -/
theorem C17_retry_resumes_read_witness :
    (∀ (s : SearchLoop Unit Snapshot) (message : String),
        ∃ s', searchAllStep dialOk 512
            (Monitor.ofSnapshots GoMap.empty GoMap.empty []).ldapMonitorConfig.BaseDN
            "(objectClass=*)" [] getAllDataCallback s (SearchResult.err message) =
              some (s', true) ∧
          s'.cookie = s.cookie ∧ s'.acc = s.acc ∧
          s'.sent = s.sent ++
            [⟨(Monitor.ofSnapshots GoMap.empty GoMap.empty []).ldapMonitorConfig.BaseDN,
              "(objectClass=*)", [], 512, s.cookie⟩]) ∧
      (getAllData dialOk (Monitor.ofSnapshots GoMap.empty GoMap.empty [])
          interruptedRead).map SearchLoop.acc =
        (getAllData dialOk (Monitor.ofSnapshots GoMap.empty GoMap.empty [])
          (interruptedRead.filter SearchResult.isResponse)).map SearchLoop.acc :=
  C17_retry_resumes_read dialOk (fun _ => ⟨_, rfl⟩)
    (Monitor.ofSnapshots GoMap.empty GoMap.empty []) interruptedRead

/-- C18.  In one run of the diff no two events have the same `(AccountName, Filed)` pair; the
`AccountName` of every event is a key of `before` or of `after` and its `Filed` is a field of
that entity there; and `union` returns each string of its arguments exactly once. -/
theorem C18_one_event_per_entity_field (before after : Snapshot) (ignore : List String) :
    ((diff before after ignore).map (fun e => (e.AccountName, e.Filed))).Nodup ∧
      (∀ e ∈ diff before after ignore,
        (∃ u v, before.get? e.AccountName = some u ∧ u.get? e.Filed = some v) ∨
          ∃ u v, after.get? e.AccountName = some u ∧ u.get? e.Filed = some v) ∧
      ∀ lists : List (List String),
        (union lists).Nodup ∧ ∀ x, x ∈ union lists ↔ ∃ l ∈ lists, x ∈ l := by
  refine ⟨?_, ?_, fun lists => ⟨nodup_union lists, mem_union lists⟩⟩
  · rw [diff_eq, diffEvents, List.map_flatMap]
    refine nodup_flatMap_key _ (nodup_union _) _ Prod.fst ?_
      (fun k _ => nodup_entityEvents_keys before after ignore k)
    intro k p hp
    obtain ⟨e, he, rfl⟩ := List.mem_map.1 hp
    exact entityEvents_accountName before after ignore k e he
  · intro e he
    have h := mem_diff before after ignore e he
    unfold entityEvents at h
    split at h
    · rename_i ub hb _
      obtain ⟨x, hx, hxe⟩ := List.mem_map.1 h
      refine Or.inl ⟨ub, x.2, hb, ?_⟩
      rw [← hxe]
      exact (GoMap.mem_entries_iff ub x.1 x.2).1 hx
    · rename_i ua _ ha
      obtain ⟨x, hx, hxe⟩ := List.mem_map.1 h
      refine Or.inr ⟨ua, x.2, ha, ?_⟩
      rw [← hxe]
      exact (GoMap.mem_entries_iff ua x.1 x.2).1 hx
    · rename_i ub ua hb ha
      obtain ⟨f, -, hf⟩ := List.mem_flatMap.1 h
      have hfe := (fieldEvents_filed _ _ _ _ _ e hf).2
      obtain ⟨-, h1 | h1 | h1⟩ := mem_fieldEvents _ _ _ _ _ e hf
      · exact Or.inl ⟨ub, _, hb, hfe ▸ h1.2.1⟩
      · exact Or.inr ⟨ua, _, ha, hfe ▸ h1.2.2.1⟩
      · exact Or.inl ⟨ub, _, hb, hfe ▸ h1.2.1⟩
    · simp at h

/-- C18 at the event of scenario 1. -/
theorem C18_one_event_per_entity_field_witness :
    (∃ u v, (Snapshot.single "alice" "title" "eng").get?
          (⟨"alice", "title", "eng", "lead", DataChangeType.Modify⟩ :
            LDAPChangeEntry).AccountName = some u ∧
        u.get? (⟨"alice", "title", "eng", "lead", DataChangeType.Modify⟩ :
          LDAPChangeEntry).Filed = some v) ∨
      ∃ u v, (Snapshot.single "alice" "title" "lead").get?
          (⟨"alice", "title", "eng", "lead", DataChangeType.Modify⟩ :
            LDAPChangeEntry).AccountName = some u ∧
        u.get? (⟨"alice", "title", "eng", "lead", DataChangeType.Modify⟩ :
          LDAPChangeEntry).Filed = some v :=
  (C18_one_event_per_entity_field (Snapshot.single "alice" "title" "eng")
    (Snapshot.single "alice" "title" "lead") []).2.1
    ⟨"alice", "title", "eng", "lead", DataChangeType.Modify⟩ (by decide)

end LDAPMonitor
